import Mathlib

/-!
# Verification of the myslowlog slow-query-log analyzer

A shallow embedding of the analytical core of the `myslowlog` crate:

* `src/log_parser.rs` — the stateful record extractor `parse_log`;
* `src/aggregate.rs` — the fingerprint-keyed aggregator
  (`AggregateLogEntry::new`, `AggregateLogEntry::update_with`,
  `aggregate_entries`);
* `src/filters/*` — the predicate filters and `src/opt.rs`'s
  `create_filter`;
* `src/summarize.rs` — `summarize_aggregates`;
* `src/normalize.rs` — the recursive SQL fingerprint normalizer over the
  external `sqlparser` statement tree.

Strings are Lean `String`s; reasoning happens on their `.data` character
lists.  Rust machine integers (`i64`, `i128`) are modelled as `Int`; the
log-analysis quantities involved (microsecond durations, counts) stay far
below the machine bounds, and every division in the source is the Rust
truncating division, modelled by `Int.tdiv`, except where the source can
divide by zero, which is modelled by `Option` (a Rust integer division by
zero panics).

External collaborators (capability boundaries, per the crate's design):
the `time` crate's ISO-8601 timestamp parser, the `regex` crate's
compiled user-supplied patterns, and the `sqlparser` SQL parser are taken
as explicit function parameters; the fixed format regexes of
`log_parser.rs` are embedded directly as character-list matchers.
-/

namespace Myslowlog

/-! ## String helpers

Character-list implementations of the `str` operations used by the
source; Lean's built-in `String.startsWith` is position-based and does
not reduce in the kernel, so we work on `.data` throughout. -/

/-- `s.starts_with(p)` on Rust `str`. -/
def strStartsWith (s p : String) : Bool :=
  p.data.isPrefixOf s.data

/-- `s.ends_with(c)` for a single character. -/
def strEndsWithChar (s : String) (c : Char) : Bool :=
  s.data.getLast? == some c

/-- `s.ends_with(|c: char| c.is_ascii_digit())`. -/
def strEndsWithDigit (s : String) : Bool :=
  match s.data.getLast? with
  | some c => c.isDigit
  | none => false

/-- `s.starts_with(|c: char| c.is_ascii_digit())`. -/
def strStartsWithDigit (s : String) : Bool :=
  match s.data.head? with
  | some c => c.isDigit
  | none => false

/-- The ASCII whitespace characters matched by the regex class `\s`
(the log lines at hand contain no non-ASCII whitespace). -/
def isWsChar (c : Char) : Bool :=
  c == ' ' || c == '\t' || c == '\n' || c == '\r' ||
    c == Char.ofNat 11 || c == Char.ofNat 12

/-- `\w` character class: `[A-Za-z0-9_]` (ASCII fragment). -/
def isWordChar (c : Char) : Bool :=
  c.isAlphanum || c == '_'

/-- `[\d.]` character class. -/
def isDigitOrDot (c : Char) : Bool :=
  c.isDigit || c == '.'

/-! ## `src/log_parser.rs` — data model -/

/-- `LogEntry` from `src/log_parser.rs`.  The `time::OffsetDateTime`
timestamp is kept as the value produced by the (parameterised) timestamp
parser; the two `time::Duration` fields are kept as whole microsecond
counts (`Duration::whole_microseconds`), which is the only way the rest
of the program reads them. -/
structure LogEntry where
  timestamp : String
  user : String
  host : String
  query_time : Int
  lock_time : Int
  rows_sent : Int
  rows_examined : Int
  query : String
  deriving Repr, DecidableEq

/-- `Duration::whole_milliseconds`, for a duration stored as whole
microseconds: Rust truncates toward zero. -/
def wholeMilliseconds (microseconds : Int) : Int :=
  microseconds.tdiv 1000

/-! ## `src/aggregate.rs` -/

/-- `AggregateLogEntry` from `src/aggregate.rs` (`count: i64`, the three
times `i128` microseconds). -/
structure AggregateLogEntry where
  query : String
  count : Int
  total_query_time : Int
  avg_query_time : Int
  max_query_time : Int
  deriving Repr, DecidableEq

/-- `AggregateLogEntry::new`. -/
def AggregateLogEntry.new (query : String) (query_time : Int) : AggregateLogEntry :=
  { query := query
    count := 1
    total_query_time := query_time
    avg_query_time := query_time
    max_query_time := query_time }

/-- `AggregateLogEntry::update_with`.  The average recurrence uses the
running `avg`/`count` pair, not `total/count`, with Rust's truncating
`i128` division. -/
def AggregateLogEntry.update_with (e : AggregateLogEntry) (query_time : Int) :
    AggregateLogEntry :=
  { query := e.query
    count := e.count + 1
    total_query_time := e.total_query_time + query_time
    avg_query_time := (e.avg_query_time * e.count + query_time).tdiv (e.count + 1)
    max_query_time := max e.max_query_time query_time }

/-- The `ahash::HashMap<String, AggregateLogEntry>` is modelled as an
association list with unique keys; only `contains_key`, `get_mut` and
`insert` on fresh keys are used by the source. -/
abbrev AggMap := List (String × AggregateLogEntry)

/-- `HashMap::contains_key`. -/
def AggMap.containsKey (m : AggMap) (k : String) : Bool :=
  m.any (fun p => p.1 == k)

/-- `HashMap::get` (used below to state what the map holds). -/
def AggMap.lookup : AggMap → String → Option AggregateLogEntry
  | [], _ => none
  | p :: m, k => if p.1 == k then some p.2 else AggMap.lookup m k

/-- `result.get_mut(&key).unwrap().update_with(query_time)`: mutate the
entry stored at `key` in place. -/
def AggMap.updateKey (m : AggMap) (k : String) (query_time : Int) : AggMap :=
  m.map (fun p => if p.1 == k then (p.1, p.2.update_with query_time) else p)

/-- One iteration of the `for_each` body of `aggregate_entries`. -/
def aggregateStep (result : AggMap) (entry : LogEntry) : AggMap :=
  let query_time := entry.query_time
  if result.containsKey entry.query then
    result.updateKey entry.query query_time
  else
    result ++ [(entry.query, AggregateLogEntry.new entry.query query_time)]

/-- `aggregate_entries` from `src/aggregate.rs`: fold the update step
over the entries in order, starting from the empty map. -/
def aggregate_entries (entries : List LogEntry) : AggMap :=
  entries.foldl aggregateStep []

/-- `NormalizedLogEntry` from `src/normalize.rs`. -/
structure NormalizedLogEntry where
  entry : LogEntry
  normalized_query : String
  deriving Repr, DecidableEq

/-- One iteration of the `for_each` body of `aggregate_normalized`. -/
def aggregateNormStep (result : AggMap) (entry : NormalizedLogEntry) : AggMap :=
  let query_time := entry.entry.query_time
  if result.containsKey entry.normalized_query then
    result.updateKey entry.normalized_query query_time
  else
    result ++
      [(entry.normalized_query, AggregateLogEntry.new entry.normalized_query query_time)]

/-- `aggregate_normalized` from `src/aggregate.rs`. -/
def aggregate_normalized (entries : List NormalizedLogEntry) : AggMap :=
  entries.foldl aggregateNormStep []

/-! ## `src/filters/*` and the filter constructor of `src/opt.rs` -/

/-- The `Filter` trait objects built by `create_filter`, as a closed
variant type: `UserEquals`, `UserMatches`, `QueryMatches`,
`QueryTimeGreaterThan`, `QueryTimeLessThan`, `Not`.  Pattern filters
store their pattern source; the compiled `regex::Regex` engine is a
capability boundary supplied to `matches` as a function. -/
inductive Filter where
  | userEquals (name : String)
  | userMatches (pattern : String)
  | queryMatches (pattern : String)
  | queryTimeGreaterThan (msec : Int)
  | queryTimeLessThan (msec : Int)
  | notF (inner : Filter)
  deriving Repr, DecidableEq

/-- `Filter::matches` for each variant, given a regex-match oracle
`regexIsMatch pattern text` standing for the external `regex` crate. -/
def Filter.matches (regexIsMatch : String → String → Bool) :
    Filter → LogEntry → Bool
  | .userEquals name, e => name == e.user
  | .userMatches pattern, e => regexIsMatch pattern e.user
  | .queryMatches pattern, e => regexIsMatch pattern e.query
  | .queryTimeGreaterThan msec, e => wholeMilliseconds e.query_time ≥ msec
  | .queryTimeLessThan msec, e => wholeMilliseconds e.query_time ≤ msec
  | .notF inner, e => !inner.matches regexIsMatch e

/-- Parse a decimal numeral string (digits with at most one interior
dot, at least one digit) and return its value scaled by `10^scale`,
truncated toward zero — `none` when the string is not such a numeral.
This models `value.parse::<f64>()` followed by `(10^scale as f64 * v) as
i64` exactly on in-range decimal inputs (the `f64` round trip of the
source can differ by one unit in the last place on values needing more
than 53 bits of precision; the claims at hand only involve exactly
representable values). -/
def parseScaledDecimal (scale : Nat) (s : String) : Option Int :=
  let parts := s.data.splitOn '.'
  match parts with
  | [intPart] =>
      if intPart ≠ [] ∧ intPart.all Char.isDigit then
        some ((intPart.foldl (fun a c => a * 10 + (c.toNat - 48)) 0 : Nat) * 10 ^ scale)
      else none
  | [intPart, fracPart] =>
      if (intPart ≠ [] ∨ fracPart ≠ []) ∧ intPart.all Char.isDigit ∧
          fracPart.all Char.isDigit then
        let ip : Nat := intPart.foldl (fun a c => a * 10 + (c.toNat - 48)) 0
        let fracTrunc := fracPart.take scale
        let fp : Nat := fracTrunc.foldl (fun a c => a * 10 + (c.toNat - 48)) 0
        some (ip * 10 ^ scale + fp * 10 ^ (scale - fracTrunc.length))
      else none
  | _ => none

/-- `create_filter` from `src/opt.rs`.  `regexCompiles` stands for
`Regex::new` succeeding on a pattern (external `regex` crate).  The
`query_time` branch parses the value as a (seconds-valued) number and
multiplies by 1000 to obtain the millisecond threshold; a non-numeric
value panics (`expect`), modelled as an error like the `Err` branches
(either way the run aborts before any record is read). -/
def create_filter (regexCompiles : String → Bool) (name op value : String) :
    Except String Filter :=
  match name with
  | "user" =>
      match op with
      | "=" => .ok (.userEquals value)
      | "!=" => .ok (.notF (.userEquals value))
      | "~=" =>
          if regexCompiles value then .ok (.userMatches value)
          else .error ("Invalid regular expression: " ++ value)
      | _ => .error ("User filter expects one of =, != or ~=, found " ++ op)
  | "query" =>
      match op with
      | "~=" =>
          if regexCompiles value then .ok (.queryMatches value)
          else .error ("Invalid regular expression: " ++ value)
      | _ => .error ("Query filter only supports ~=, found " ++ op)
  | "query_time" =>
      match parseScaledDecimal 3 value with
      | none => .error "Query time filter requires a numeric argument"
      | some msec =>
          match op with
          | "<" => .ok (.queryTimeLessThan msec)
          | "<=" => .ok (.queryTimeLessThan msec)
          | ">" => .ok (.queryTimeGreaterThan msec)
          | ">=" => .ok (.queryTimeGreaterThan msec)
          | _ => .error ("Query time filter expects one of <, <=, > or >=, found " ++ op)
  | _ => .error ("Unknown filter name: " ++ name)

/-! ## `src/summarize.rs` -/

/-- `Summary` from `src/summarize.rs`; the two `chrono::Duration` fields
are kept as whole microsecond counts, as constructed by
`Duration::microseconds`. -/
structure Summary where
  total_queries : Int
  unique_queries : Int
  max_execution_time : Int
  avg_execution_time : Int
  deriving Repr, DecidableEq

/-- `summarize_aggregates` from `src/summarize.rs`.  The final
`total_execution_time / total_queries` is an unguarded `i64` division:
Rust panics when `total_queries` is zero, modelled as `none`. -/
def summarize_aggregates (entries : AggMap) : Option Summary :=
  let total_queries := entries.foldl (fun acc p => acc + p.2.count) 0
  let max_execution_time := entries.foldl (fun acc p => max acc p.2.max_query_time) 0
  let total_execution_time :=
    entries.foldl (fun acc p => acc + p.2.avg_query_time * p.2.count) 0
  if total_queries = 0 then none
  else
    some
      { total_queries := total_queries
        unique_queries := (entries.length : Int)
        max_execution_time := max_execution_time
        avg_execution_time := total_execution_time.tdiv total_queries }

/-! ## `src/log_parser.rs` — the record extractor

The four fixed regexes of `parse_log` are embedded as character-list
matchers.  Each is deterministic: in every spot where a greedy class
repetition is followed by further pattern material, the class and the
following character are disjoint, so maximal munch is the unique match.

* `time_regex = "# Time: (\S+)"` — unanchored search;
* `user_regex = "^# User@Host: ([\w-]+)\[[^]]+] @ (\w*) \[([\d.]*)]"`;
* `metric_regex = "^# Query_time: ([\d.]+)\s+Lock_time: ([\d.]+)\s+Rows_sent: (\d+)\s+Rows_examined: (\d+)"`;
* `whitespace_regex = "\t|\s\s+"` — used with `replace_all(_, " ")`.
-/

/-- Consume the literal `lit` from the front of `cs`. -/
def expectLit (lit : List Char) (cs : List Char) : Option (List Char) :=
  if lit.isPrefixOf cs then some (cs.drop lit.length) else none

/-- Split off the maximal (greedy) run of characters of a class. -/
def takeClass (p : Char → Bool) (cs : List Char) : List Char × List Char :=
  (cs.takeWhile p, cs.dropWhile p)

/-- Greedy `\s+`: at least one whitespace character. -/
def wsPlus (cs : List Char) : Option (List Char) :=
  let t := takeClass isWsChar cs
  if t.1.isEmpty then none else some t.2

/-- `time_regex` matched at the current position: the literal
`"# Time: "` followed by a nonempty `\S+` capture. -/
def timeCapAt (cs : List Char) : Option String :=
  match expectLit "# Time: ".data cs with
  | none => none
  | some rest =>
      let tok := rest.takeWhile (fun c => !isWsChar c)
      if tok.isEmpty then none else some (String.mk tok)

/-- `Regex::captures` is an unanchored search: try every start
position, leftmost match wins. -/
def timeSearch : List Char → Option String
  | [] => none
  | c :: cs =>
      match timeCapAt (c :: cs) with
      | some t => some t
      | none => timeSearch cs

/-- `time_regex.captures(line)` with group 1 extracted. -/
def timeCapture (line : String) : Option String :=
  timeSearch line.data

/-- `user_regex.captures(line)`, returning groups 1 (user),
2 (hostname slot) and 3 (IP slot).  The regex is anchored with `^`. -/
def userCaptures (line : String) : Option (String × String × String) :=
  (expectLit "# User@Host: ".data line.data).bind fun r1 =>
  let t1 := takeClass (fun c => isWordChar c || c == '-') r1
  if t1.1.isEmpty then none else
  (expectLit ['['] t1.2).bind fun r2 =>
  let t2 := takeClass (fun c => c != ']') r2
  if t2.1.isEmpty then none else
  (expectLit [']'] t2.2).bind fun r3 =>
  (expectLit " @ ".data r3).bind fun r4 =>
  let t3 := takeClass isWordChar r4
  (expectLit " [".data t3.2).bind fun r5 =>
  let t4 := takeClass isDigitOrDot r5
  (expectLit [']'] t4.2).map fun _ =>
    (String.mk t1.1, String.mk t3.1, String.mk t4.1)

/-- `metric_regex.captures(line)`, returning groups 1-4 (query time,
lock time, rows sent, rows examined).  Anchored with `^`. -/
def metricCaptures (line : String) :
    Option (String × String × String × String) :=
  (expectLit "# Query_time: ".data line.data).bind fun r1 =>
  let t1 := takeClass isDigitOrDot r1
  if t1.1.isEmpty then none else
  (wsPlus t1.2).bind fun r2 =>
  (expectLit "Lock_time: ".data r2).bind fun r3 =>
  let t2 := takeClass isDigitOrDot r3
  if t2.1.isEmpty then none else
  (wsPlus t2.2).bind fun r4 =>
  (expectLit "Rows_sent: ".data r4).bind fun r5 =>
  let t3 := takeClass Char.isDigit r5
  if t3.1.isEmpty then none else
  (wsPlus t3.2).bind fun r6 =>
  (expectLit "Rows_examined: ".data r6).bind fun r7 =>
  let t4 := takeClass Char.isDigit r7
  if t4.1.isEmpty then none else
  some (String.mk t1.1, String.mk t2.1, String.mk t3.1, String.mk t4.1)

theorem length_dropWhile_le {α : Type} (p : α → Bool) (l : List α) :
    (l.dropWhile p).length ≤ l.length :=
  (List.dropWhile_sublist p).length_le

/-- `whitespace_regex.replace_all(query, " ")` for `\t|\s\s+` with the
regex crate's leftmost-first alternation: a lone tab becomes one space
(first alternative, length 1), and any whitespace run of length ≥ 2
starting with a non-tab collapses to one space. -/
def replaceWs : List Char → List Char
  | [] => []
  | c :: cs =>
      if c == '\t' then ' ' :: replaceWs cs
      else if isWsChar c &&
          (match cs.head? with | some d => isWsChar d | none => false) then
        ' ' :: replaceWs (cs.dropWhile isWsChar)
      else c :: replaceWs cs
termination_by cs => cs.length
decreasing_by
  · simp
  · have := length_dropWhile_le isWsChar cs
    simp
    omega
  · simp

/-- `replace_all` lifted to `String`. -/
def strReplaceWs (s : String) : String :=
  String.mk (replaceWs s.data)

/-- The continuation-line join of `parse_log`: a single space, except
that two adjacent ASCII digits across the line break are concatenated
directly (the wrapped-number heuristic). -/
def queryJoin (query next_line : String) : String :=
  let padding :=
    if strEndsWithDigit query && strStartsWithDigit next_line then "" else " "
  query ++ padding ++ next_line

/-- The inner `while !query.ends_with(';')` accumulation loop: returns
the accumulated query text and the remaining lines.  Running out of
lines leaves the loop with the partial text (the `break` exits only
this inner loop). -/
def accumulateQuery : String → List String → String × List String
  | q, [] => (q, [])
  | q, l :: ls =>
      if strEndsWithChar q ';' then (q, l :: ls)
      else accumulateQuery (queryJoin q l) ls

/-- The preamble predicate of the `advance_while` call:
`q.starts_with("SET timestamp") || q.starts_with("use")`. -/
def isPreambleLine (l : String) : Bool :=
  strStartsWith l "SET timestamp" || strStartsWith l "use"

/-- `str::parse::<i32>` on a digit string (overflow panics; non-digit
content cannot reach it through `(\d+)` captures but is rejected for
totality). -/
def parseI32 (s : String) : Option Int :=
  if s.data ≠ [] ∧ s.data.all Char.isDigit then
    let n : Nat := s.data.foldl (fun a c => a * 10 + (c.toNat - 48)) 0
    if n ≤ 2147483647 then some (n : Int) else none
  else none

theorem accumulateQuery_snd_length_le (q : String) (ls : List String) :
    (accumulateQuery q ls).2.length ≤ ls.length := by
  induction ls generalizing q with
  | nil => simp [accumulateQuery]
  | cons l ls ih =>
      simp only [accumulateQuery]
      split
      · simp
      · exact le_trans (ih _) (Nat.le_succ _)

/-- `parse_log` from `src/log_parser.rs`, parameterised by the external
ISO-8601 timestamp parser `ts` (`OffsetDateTime::parse`; `none` models
its `Err`, which the source `unwrap`s into a panic).  A Rust panic
aborts the whole run with no output, modelled by `Except.error`
swallowing any previously extracted entries; `break` ends extraction
with the entries collected so far.  `microseconds_to_duration` is
`parseScaledDecimal 6` (the `f64` detour of the source is exact on the
in-range ≤6-decimal-place values the claims involve). -/
def parseLogAux (ts : String → Option String) :
    List String → Except String (List LogEntry)
  | [] => .ok []
  | line :: rest =>
      if strStartsWith line "# Time" = false then parseLogAux ts rest
      else
        match timeCapture line with
        | none => .error ("Could not parse time from line:\n" ++ line)
        | some cap =>
            match ts cap with
            | none => .error ("could not parse timestamp " ++ cap)
            | some timestamp =>
                match rest with
                | [] => .ok []
                | uline :: rest2 =>
                    match userCaptures uline with
                    | none => .error ("Could not parse user info from line:\n" ++ uline)
                    | some ug =>
                        let host := if ug.2.1.data.isEmpty then ug.2.2 else ug.2.1
                        match rest2 with
                        | [] => .ok []
                        | mline :: rest3 =>
                            match metricCaptures mline with
                            | none => .error "Metric matching failed"
                            | some mg =>
                                match parseScaledDecimal 6 mg.1,
                                    parseScaledDecimal 6 mg.2.1,
                                    parseI32 mg.2.2.1, parseI32 mg.2.2.2 with
                                | some query_time, some lock_time,
                                    some rows_sent, some rows_examined =>
                                    match hdrop : rest3.dropWhile isPreambleLine with
                                    | [] => .ok []
                                    | qline :: rest5 =>
                                        match parseLogAux ts
                                            (accumulateQuery qline rest5).2 with
                                        | .error e => .error e
                                        | .ok es =>
                                            .ok
                                              ({ timestamp := timestamp
                                                 user := ug.1
                                                 host := host
                                                 query_time := query_time
                                                 lock_time := lock_time
                                                 rows_sent := rows_sent
                                                 rows_examined := rows_examined
                                                 query :=
                                                   strReplaceWs
                                                     (accumulateQuery qline rest5).1 } :: es)
                                | _, _, _, _ => .error "invalid duration or row count"
termination_by ls => ls.length
decreasing_by
  · simp
  · have h1 := accumulateQuery_snd_length_le qline rest5
    have h2 := length_dropWhile_le isPreambleLine rest3
    rw [hdrop] at h2
    simp at h2 ⊢
    omega

/-- `parse_log` entry point. -/
def parse_log (ts : String → Option String) (lines : List String) :
    Except String (List LogEntry) :=
  parseLogAux ts lines

/-! ## The `sqlparser` statement tree (external crate) — modelled fragment

`src/normalize.rs` rewrites the statement tree produced by the external
`sqlparser` crate.  We embed the fragment of that tree that the
normalizer dispatches on, one Lean constructor per Rust struct/enum
variant, with constructor arguments in the source's field order.  Node
kinds the normalizer never inspects (it clones them verbatim via its
`default => default.clone()` arms or field-by-field copies) are carried
as opaque payloads: an `Option String`/`List String`/`String` stands for
the cloned value, and `other` constructors stand for the unhandled
variants of each enum.  Two deliberate exceptions stay fully
structured even though the normalizer only clones them, because the
claims are about literals inside them: the `with` clause of `Query`
(CTEs) and the `source` query of `Insert`. -/

/-- `sqlparser::tokenizer::Span` (start/end line and column). -/
structure Span where
  startLine : Nat
  startCol : Nat
  endLine : Nat
  endCol : Nat
  deriving Repr, DecidableEq

/-- `Span::empty()`. -/
def Span.empty : Span := ⟨0, 0, 0, 0⟩

/-- `sqlparser::ast::Value` — the literal-value node (fragment; the
crate's remaining string-literal flavours behave like the ones here). -/
inductive Value where
  | number (n : String) (long : Bool)
  | singleQuotedString (s : String)
  | doubleQuotedString (s : String)
  | nationalStringLiteral (s : String)
  | hexStringLiteral (s : String)
  | boolean (b : Bool)
  | placeholder (s : String)
  | null
  deriving Repr, DecidableEq

/-- `sqlparser::ast::ValueWithSpan`. -/
structure ValueWithSpan where
  value : Value
  span : Span
  deriving Repr, DecidableEq

set_option maxHeartbeats 2000000 in
mutual

/-- `sqlparser::ast::Statement` (the four variants the normalizer
dispatches on, plus `other` for its `default => default.clone()` arm).
The `Update` variant inlines its six fields like the Rust enum does;
`from` and `returning`/`or` are cloned verbatim by the normalizer and
are carried opaquely. -/
inductive Statement where
  | query (q : Query)
  | insert (i : Insert)
  | update (table : TableWithJoins) (assignments : List Assignment)
      (from_ : Option String) (selection : Option Expr)
      (returning : Option String) (or_ : Option String)
  | delete (d : Delete)
  | other (raw : String)

/-- `sqlparser::ast::Query`.  Field order follows `normalize_query`:
`with`, `body`, `order_by`, `limit_clause`, `fetch`, `locks`,
`for_clause`, `settings`, `format_clause`, `pipe_operators`; all but
`with` and `body` are cloned verbatim and carried opaquely. -/
inductive Query where
  | mk (with_ : Option WithClause) (body : SetExpr) (order_by : Option String)
      (limit_clause : Option String) (fetch : Option String)
      (locks : List String) (for_clause : Option String)
      (settings : Option String) (format_clause : Option String)
      (pipe_operators : List String)

/-- `sqlparser::ast::With`: the `RECURSIVE` flag and the CTE list. -/
inductive WithClause where
  | mk (recursive : Bool) (cte_tables : List Cte)

/-- `sqlparser::ast::Cte` (alias and body; remaining fields elided). -/
inductive Cte where
  | mk (alias_ : String) (query : Query)

/-- `sqlparser::ast::SetExpr`. -/
inductive SetExpr where
  | select (s : Select)
  | query (q : Query)
  | setOperation (op : String) (set_quantifier : String)
      (left : SetExpr) (right : SetExpr)
  | values (v : Values)
  | insert (s : Statement)
  | update (s : Statement)
  | table (t : String)
  | delete (s : Statement)

/-- `sqlparser::ast::Select`.  Field order follows `normalize_select`;
the fields that function clones (`top`, `exclude`, `into`,
`lateral_views`, `cluster_by`, `distribute_by`, `sort_by`,
`value_table_mode`, `named_window`, `flavor`) are opaque, and
`connect_by` is the field `normalize_select` replaces with `None`. -/
inductive Select where
  | mk (select_token : Unit) (distinct : Option Distinct) (top : Option String)
      (top_before_distinct : Bool) (projection : List SelectItem)
      (exclude : Option String) (into : Option String)
      (from_ : List TableWithJoins) (lateral_views : List String)
      (prewhere : Option Expr) (selection : Option Expr)
      (group_by : GroupByExpr) (cluster_by : List String)
      (distribute_by : List String) (sort_by : List String)
      (having : Option Expr) (qualify : Option Expr)
      (window_before_qualify : Bool) (value_table_mode : Option String)
      (connect_by : Option String) (named_window : List String)
      (flavor : String)

/-- `sqlparser::ast::Distinct`. -/
inductive Distinct where
  | distinct
  | on (exprs : List Expr)

/-- `sqlparser::ast::SelectItem`; the two wildcard variants carry their
cloned payload opaquely. -/
inductive SelectItem where
  | unnamedExpr (e : Expr)
  | exprWithAlias (e : Expr) (alias_ : String)
  | qualifiedWildcard (raw : String)
  | wildcard (raw : String)

/-- `sqlparser::ast::TableWithJoins`. -/
inductive TableWithJoins where
  | mk (relation : TableFactor) (joins : List Join)

/-- `sqlparser::ast::TableFactor`: the two variants `normalize_table_factor`
rewrites, a plain named table, and `other` for the default clone arm. -/
inductive TableFactor where
  | table (name : String)
  | derived (lateral : Bool) (subquery : Query) (alias_ : Option String)
  | nestedJoin (table_with_joins : TableWithJoins) (alias_ : Option String)
  | other (raw : String)

/-- `sqlparser::ast::Join`. -/
inductive Join where
  | mk (relation : TableFactor) (join_operator : JoinOperator) (global : Bool)

/-- `sqlparser::ast::JoinOperator`: the four variants
`normalize_join_operator` rewrites plus the default clone arm. -/
inductive JoinOperator where
  | inner (c : JoinConstraint)
  | leftOuter (c : JoinConstraint)
  | rightOuter (c : JoinConstraint)
  | fullOuter (c : JoinConstraint)
  | other (raw : String)

/-- `sqlparser::ast::JoinConstraint`. -/
inductive JoinConstraint where
  | on (e : Expr)
  | using_ (cols : List String)
  | natural
  | none_

/-- `sqlparser::ast::GroupByExpr` (modifier lists opaque). -/
inductive GroupByExpr where
  | all (modifiers : List String)
  | expressions (exprs : List Expr) (modifiers : List String)

/-- `sqlparser::ast::Values`. -/
inductive Values where
  | mk (explicit_row : Bool) (rows : List (List Expr))

/-- `sqlparser::ast::Insert`.  Field order follows `normalize_insert`:
`into`, `columns`, `source`, `on`, `returning`, `replace_into`,
`priority`, `insert_alias`, `settings`, `partitioned`, `or`,
`after_columns`, `overwrite`, `table`, `ignore`, `table_alias`,
`assignments`, `has_table_keyword`, `format_clause`.  `source` is the
full (cloned, never normalized) `Option<Query>`; `on` carries the
`ON DUPLICATE KEY UPDATE`/conflict clause opaquely (also cloned). -/
inductive Insert where
  | mk (into : Bool) (columns : List String) (source : Option Query)
      (on_ : Option String) (returning : Option String) (replace_into : Bool)
      (priority : Option String) (insert_alias : Option String)
      (settings : Option String) (partitioned : Option String)
      (or_ : Option String) (after_columns : List String) (overwrite : Bool)
      (table : String) (ignore : Bool) (table_alias : Option String)
      (assignments : List Assignment) (has_table_keyword : Bool)
      (format_clause : Option String)

/-- `sqlparser::ast::Assignment`. -/
inductive Assignment where
  | mk (target : String) (value : Expr)

/-- `sqlparser::ast::Delete` (field order follows `normalize_delete`:
`tables`, `from`, `using`, `selection`, `returning`, `order_by`,
`limit`; `from`, `using`, `returning` and `limit` are cloned verbatim
and carried opaquely — `limit` keeps its `Option Expr` type). -/
inductive Delete where
  | mk (tables : List String) (from_ : String) (using_ : Option String)
      (selection : Option Expr) (returning : Option String)
      (order_by : List OrderByExpr) (limit : Option Expr)

/-- `sqlparser::ast::OrderByExpr` (`options` and `with_fill` cloned,
opaque). -/
inductive OrderByExpr where
  | mk (expr : Expr) (options : String) (with_fill : Option String)

/-- `sqlparser::ast::Expr` — the variants `normalize_expr` rewrites
(minus `Case`/`Cast`/`Extract`/`Collate`/`ILike`, which recurse the
same way as their retained siblings), a plain identifier, and `other`
for the default clone arm. -/
inductive Expr where
  | identifier (name : String)
  | value (v : ValueWithSpan)
  | isNull (e : Expr)
  | isNotNull (e : Expr)
  | inList (expr : Expr) (list : List Expr) (negated : Bool)
  | inSubquery (expr : Expr) (subquery : Query) (negated : Bool)
  | between (expr : Expr) (negated : Bool) (low : Expr) (high : Expr)
  | binaryOp (left : Expr) (op : String) (right : Expr)
  | unaryOp (op : String) (expr : Expr)
  | nested (e : Expr)
  | exists_ (subquery : Query) (negated : Bool)
  | subquery (q : Query)
  | like (expr : Expr) (negated : Bool) (any : Bool)
      (escape_char : Option String) (pattern : Expr)
  | other (raw : String)

end

/-! ## `src/normalize.rs` — the fingerprint normalizer -/

/-- `normalize_value`: every literal value, whatever its kind (`NULL`
included), becomes the placeholder `?`. -/
def normalize_value (_value : Value) : Value :=
  .placeholder "?"

/-- `normalize_value_with_span`. -/
def normalize_value_with_span (v : ValueWithSpan) : ValueWithSpan :=
  { value := normalize_value v.value, span := Span.empty }

mutual

/-- `normalize_stmt`.  The `Update` arm inlines `normalize_update`
(whose non-`Update` arm in the source is an unreachable panic); the
final arm is `default => default.clone()`. -/
def normalize_stmt : Statement → Statement
  | .query q => .query (normalize_query q)
  | .insert i => .insert (normalize_insert i)
  | .update table assignments from_ selection returning or_ =>
      .update (normalize_table_with_joins table)
        (normalize_assignment_list assignments) from_
        (normalize_opt_expr selection) returning or_
  | .delete d => .delete (normalize_delete d)
  | .other raw => .other raw

/-- `normalize_query`: only `body` is normalized; `with` (the CTE list)
and all remaining fields are cloned. -/
def normalize_query : Query → Query
  | .mk with_ body order_by limit_clause fetch locks for_clause settings
      format_clause pipe_operators =>
      .mk with_ (normalize_set_expr body) order_by limit_clause fetch locks
        for_clause settings format_clause pipe_operators

/-- `normalize_insert`: clones every field — including `source`, the
`VALUES`/`SELECT` body, which is *not* normalized — except that
`ignore` becomes `false`, `table_alias` becomes `None`, `assignments`
becomes `vec![]`, `has_table_keyword` becomes `false` and
`format_clause` becomes `None`. -/
def normalize_insert : Insert → Insert
  | .mk into columns source on_ returning replace_into priority insert_alias
      settings partitioned or_ after_columns overwrite table _ignore
      _table_alias _assignments _has_table_keyword _format_clause =>
      .mk into columns source on_ returning replace_into priority insert_alias
        settings partitioned or_ after_columns overwrite table false none []
        false none

/-- `normalize_assignment`. -/
def normalize_assignment : Assignment → Assignment
  | .mk target value => .mk target (normalize_expr value)

/-- `assignments.iter().map(normalize_assignment).collect()`. -/
def normalize_assignment_list : List Assignment → List Assignment
  | [] => []
  | a :: rest => normalize_assignment a :: normalize_assignment_list rest

/-- `normalize_delete`. -/
def normalize_delete : Delete → Delete
  | .mk tables from_ using_ selection returning order_by limit =>
      .mk tables from_ using_ (normalize_opt_expr selection) returning
        (normalize_order_by_list order_by) limit

/-- `normalize_set_expr`. -/
def normalize_set_expr : SetExpr → SetExpr
  | .select s => .select (normalize_select s)
  | .query q => .query (normalize_query q)
  | .setOperation op set_quantifier left right =>
      .setOperation op set_quantifier (normalize_set_expr left)
        (normalize_set_expr right)
  | .values v => .values (normalize_values v)
  | .insert s => .insert (normalize_stmt s)
  | .update s => .update (normalize_stmt s)
  | .table t => .table t
  | .delete s => .delete (normalize_stmt s)

/-- `normalize_select`; note `connect_by: None` in the source. -/
def normalize_select : Select → Select
  | .mk select_token distinct top top_before_distinct projection exclude into
      from_ lateral_views prewhere selection group_by cluster_by distribute_by
      sort_by having qualify window_before_qualify value_table_mode _connect_by
      named_window flavor =>
      .mk select_token (normalize_opt_distinct distinct) top top_before_distinct
        (normalize_select_item_list projection) exclude into
        (normalize_twj_list from_) lateral_views (normalize_opt_expr prewhere)
        (normalize_opt_expr selection) (normalize_group_by group_by) cluster_by
        distribute_by sort_by (normalize_opt_expr having)
        (normalize_opt_expr qualify) window_before_qualify value_table_mode
        none named_window flavor

/-- `select.distinct.as_ref().map(normalize_distinct)`. -/
def normalize_opt_distinct : Option Distinct → Option Distinct
  | none => none
  | some d => some (normalize_distinct d)

/-- `normalize_distinct`. -/
def normalize_distinct : Distinct → Distinct
  | .distinct => .distinct
  | .on exprs => .on (normalize_expr_list exprs)

/-- `normalize_select_item`. -/
def normalize_select_item : SelectItem → SelectItem
  | .unnamedExpr e => .unnamedExpr (normalize_expr e)
  | .exprWithAlias e alias_ => .exprWithAlias (normalize_expr e) alias_
  | .qualifiedWildcard raw => .qualifiedWildcard raw
  | .wildcard raw => .wildcard raw

/-- `projection.iter().map(normalize_select_item).collect()`. -/
def normalize_select_item_list : List SelectItem → List SelectItem
  | [] => []
  | i :: rest => normalize_select_item i :: normalize_select_item_list rest

/-- `normalize_table_with_joins`. -/
def normalize_table_with_joins : TableWithJoins → TableWithJoins
  | .mk relation joins =>
      .mk (normalize_table_factor relation) (normalize_join_list joins)

/-- `from.iter().map(normalize_table_with_joins).collect()`. -/
def normalize_twj_list : List TableWithJoins → List TableWithJoins
  | [] => []
  | t :: rest => normalize_table_with_joins t :: normalize_twj_list rest

/-- `normalize_join`. -/
def normalize_join : Join → Join
  | .mk relation join_operator global =>
      .mk (normalize_table_factor relation)
        (normalize_join_operator join_operator) global

/-- `twj.joins.iter().map(normalize_join).collect()`. -/
def normalize_join_list : List Join → List Join
  | [] => []
  | j :: rest => normalize_join j :: normalize_join_list rest

/-- `normalize_table_factor` (named tables fall into the default clone
arm of the source). -/
def normalize_table_factor : TableFactor → TableFactor
  | .nestedJoin table_with_joins alias_ =>
      .nestedJoin (normalize_table_with_joins table_with_joins) alias_
  | .derived lateral subquery alias_ =>
      .derived lateral (normalize_query subquery) alias_
  | .table name => .table name
  | .other raw => .other raw

/-- `normalize_join_operator`. -/
def normalize_join_operator : JoinOperator → JoinOperator
  | .inner c => .inner (normalize_join_constraint c)
  | .leftOuter c => .leftOuter (normalize_join_constraint c)
  | .rightOuter c => .rightOuter (normalize_join_constraint c)
  | .fullOuter c => .fullOuter (normalize_join_constraint c)
  | .other raw => .other raw

/-- `normalize_join_constraint`. -/
def normalize_join_constraint : JoinConstraint → JoinConstraint
  | .on e => .on (normalize_expr e)
  | c => c

/-- `normalize_values`. -/
def normalize_values : Values → Values
  | .mk explicit_row rows => .mk explicit_row (normalize_rows rows)

/-- `values.rows.iter().map(|vec| vec.iter().map(normalize_expr))`. -/
def normalize_rows : List (List Expr) → List (List Expr)
  | [] => []
  | r :: rest => normalize_expr_list r :: normalize_rows rest

/-- `normalize_order_by`. -/
def normalize_order_by : OrderByExpr → OrderByExpr
  | .mk expr options with_fill => .mk (normalize_expr expr) options with_fill

/-- `order_by.iter().map(normalize_order_by).collect()`. -/
def normalize_order_by_list : List OrderByExpr → List OrderByExpr
  | [] => []
  | o :: rest => normalize_order_by o :: normalize_order_by_list rest

/-- `normalize_group_by`. -/
def normalize_group_by : GroupByExpr → GroupByExpr
  | .all modifiers => .all modifiers
  | .expressions exprs modifiers =>
      .expressions (normalize_expr_list exprs) modifiers

/-- `exprs.iter().map(normalize_expr).collect()`. -/
def normalize_expr_list : List Expr → List Expr
  | [] => []
  | e :: rest => normalize_expr e :: normalize_expr_list rest

/-- `option.as_ref().map(normalize_expr)`. -/
def normalize_opt_expr : Option Expr → Option Expr
  | none => none
  | some e => some (normalize_expr e)

/-- `normalize_expr`.  The `InList` arms implement the source comment
“reduce all lists down to 1 element”: `list.first()` mapped through
`normalize_expr`, an empty list staying empty.  `identifier` and
`other` fall into the default clone arm. -/
def normalize_expr : Expr → Expr
  | .isNull e => .isNull (normalize_expr e)
  | .isNotNull e => .isNotNull (normalize_expr e)
  | .inList expr [] negated => .inList (normalize_expr expr) [] negated
  | .inList expr (e :: _) negated =>
      .inList (normalize_expr expr) [normalize_expr e] negated
  | .inSubquery expr subquery negated =>
      .inSubquery (normalize_expr expr) (normalize_query subquery) negated
  | .between expr negated low high =>
      .between (normalize_expr expr) negated (normalize_expr low)
        (normalize_expr high)
  | .binaryOp left op right =>
      .binaryOp (normalize_expr left) op (normalize_expr right)
  | .unaryOp op expr => .unaryOp op (normalize_expr expr)
  | .nested e => .nested (normalize_expr e)
  | .exists_ subquery negated => .exists_ (normalize_query subquery) negated
  | .subquery q => .subquery (normalize_query q)
  | .like expr negated any escape_char pattern =>
      .like (normalize_expr expr) negated any escape_char
        (normalize_expr pattern)
  | .value v => .value (normalize_value_with_span v)
  | .identifier name => .identifier name
  | .other raw => .other raw

end

/-! ## Re-rendering (`format!("{}")` via `sqlparser`'s `Display`)

The fingerprint is the `Display` text of the rewritten tree.  The
renderer below mirrors the crate's `Display` implementations on the
modelled fragment; opaque cloned payloads print as their carried text
(prefixed by the separating space their clause contributes), so that a
difference in any cloned field shows up in the rendered string exactly
as it does in the source. -/

/-- ASCII apostrophe, written by code point to keep the file free of
quote-escape noise. -/
def sqChar : Char := Char.ofNat 39

/-- ASCII double quote. -/
def dqChar : Char := Char.ofNat 34

/-- Wrap a string in single quotes (SQL string literal rendering). -/
def singleQuoted (s : String) : String :=
  String.mk (sqChar :: s.data ++ [sqChar])

/-- `display_comma_separated`. -/
def commaJoin : List String → String
  | [] => ""
  | [s] => s
  | s :: rest => s ++ ", " ++ commaJoin rest

/-- Render an optional clause with a leading space, nothing when
absent. -/
def optClause : Option String → String
  | none => ""
  | some s => " " ++ s

/-- `Display` for `Value`. -/
def render_value : Value → String
  | .number n long => n ++ (if long then "L" else "")
  | .singleQuotedString s => singleQuoted s
  | .doubleQuotedString s => String.mk (dqChar :: s.data ++ [dqChar])
  | .nationalStringLiteral s => "N" ++ singleQuoted s
  | .hexStringLiteral s => "X" ++ singleQuoted s
  | .boolean b => if b then "true" else "false"
  | .placeholder s => s
  | .null => "NULL"

mutual

/-- `Display` for `Statement` on the modelled fragment. -/
def render_stmt : Statement → String
  | .query q => render_query q
  | .insert i => render_insert i
  | .update table assignments from_ selection returning or_ =>
      "UPDATE " ++ render_twj table ++
        (match assignments with
         | [] => ""
         | _ => " SET " ++ commaJoin (render_assignment_list assignments)) ++
        optClause from_ ++
        (match selection with
         | none => ""
         | some e => " WHERE " ++ render_expr e) ++
        optClause returning ++ optClause or_
  | .delete d => render_delete d
  | .other raw => raw

/-- `Display` for `Query`: optional `WITH`, then the body, then the
cloned tail clauses. -/
def render_query : Query → String
  | .mk with_ body order_by limit_clause fetch locks for_clause settings
      format_clause pipe_operators =>
      (match with_ with
       | none => ""
       | some w => render_with w ++ " ") ++
      render_set_expr body ++
      optClause order_by ++ optClause limit_clause ++ optClause settings ++
      optClause fetch ++
      (match locks with
       | [] => ""
       | ls => " " ++ commaJoin ls) ++
      optClause for_clause ++ optClause format_clause ++
      (match pipe_operators with
       | [] => ""
       | ps => " " ++ commaJoin ps)

/-- `Display` for `With`. -/
def render_with : WithClause → String
  | .mk recursive cte_tables =>
      "WITH " ++ (if recursive then "RECURSIVE " else "") ++
        commaJoin (render_cte_list cte_tables)

/-- `Display` for `Cte`: `alias AS (query)`. -/
def render_cte : Cte → String
  | .mk alias_ query => alias_ ++ " AS (" ++ render_query query ++ ")"

def render_cte_list : List Cte → List String
  | [] => []
  | c :: rest => render_cte c :: render_cte_list rest

/-- `Display` for `SetExpr`. -/
def render_set_expr : SetExpr → String
  | .select s => render_select s
  | .query q => "(" ++ render_query q ++ ")"
  | .setOperation op set_quantifier left right =>
      render_set_expr left ++ " " ++ op ++
        (if set_quantifier.data.isEmpty then "" else " " ++ set_quantifier) ++
        " " ++ render_set_expr right
  | .values v => render_values v
  | .insert s => render_stmt s
  | .update s => render_stmt s
  | .table t => t
  | .delete s => render_stmt s

/-- `Display` for `Select` (clauses in the crate's print order; absent
optional clauses print nothing). -/
def render_select : Select → String
  | .mk _select_token distinct top top_before_distinct projection exclude into
      from_ lateral_views prewhere selection group_by cluster_by distribute_by
      sort_by having qualify _window_before_qualify value_table_mode connect_by
      named_window _flavor =>
      "SELECT" ++
      (if top_before_distinct then optClause top else "") ++
      (match distinct with
       | none => ""
       | some .distinct => " DISTINCT"
       | some (.on exprs) =>
           " DISTINCT ON (" ++ commaJoin (render_expr_list exprs) ++ ")") ++
      (if top_before_distinct then "" else optClause top) ++
      " " ++ commaJoin (render_select_item_list projection) ++
      optClause exclude ++ optClause into ++
      (match from_ with
       | [] => ""
       | ts => " FROM " ++ commaJoin (render_twj_list ts)) ++
      (match lateral_views with
       | [] => ""
       | ls => " " ++ commaJoin ls) ++
      (match prewhere with
       | none => ""
       | some e => " PREWHERE " ++ render_expr e) ++
      (match selection with
       | none => ""
       | some e => " WHERE " ++ render_expr e) ++
      render_group_by group_by ++
      (match cluster_by with
       | [] => ""
       | cs => " CLUSTER BY " ++ commaJoin cs) ++
      (match distribute_by with
       | [] => ""
       | ds => " DISTRIBUTE BY " ++ commaJoin ds) ++
      (match sort_by with
       | [] => ""
       | ss => " SORT BY " ++ commaJoin ss) ++
      (match having with
       | none => ""
       | some e => " HAVING " ++ render_expr e) ++
      (match named_window with
       | [] => ""
       | ws => " WINDOW " ++ commaJoin ws) ++
      (match qualify with
       | none => ""
       | some e => " QUALIFY " ++ render_expr e) ++
      optClause value_table_mode ++ optClause connect_by

/-- `Display` for `GroupByExpr` (prints nothing for an empty
expression list, per `Select`'s guard). -/
def render_group_by : GroupByExpr → String
  | .all modifiers =>
      " GROUP BY ALL" ++
        (match modifiers with
         | [] => ""
         | ms => " " ++ commaJoin ms)
  | .expressions [] _ => ""
  | .expressions exprs modifiers =>
      " GROUP BY " ++ commaJoin (render_expr_list exprs) ++
        (match modifiers with
         | [] => ""
         | ms => " " ++ commaJoin ms)

/-- `Display` for `SelectItem` (wildcards print their cloned text). -/
def render_select_item : SelectItem → String
  | .unnamedExpr e => render_expr e
  | .exprWithAlias e alias_ => render_expr e ++ " AS " ++ alias_
  | .qualifiedWildcard raw => raw
  | .wildcard raw => raw

def render_select_item_list : List SelectItem → List String
  | [] => []
  | i :: rest => render_select_item i :: render_select_item_list rest

/-- `Display` for `TableWithJoins`. -/
def render_twj : TableWithJoins → String
  | .mk relation joins => render_tf relation ++ render_join_list joins

def render_twj_list : List TableWithJoins → List String
  | [] => []
  | t :: rest => render_twj t :: render_twj_list rest

/-- `Display` for `Join` (leading space; operator keyword, relation,
constraint suffix). -/
def render_join : Join → String
  | .mk relation join_operator global =>
      " " ++ (if global then "GLOBAL " else "") ++
      (match join_operator with
       | .inner c =>
           renderConstraintPre c ++ "JOIN " ++ render_tf relation ++
             renderConstraintSuffix c
       | .leftOuter c =>
           renderConstraintPre c ++ "LEFT JOIN " ++ render_tf relation ++
             renderConstraintSuffix c
       | .rightOuter c =>
           renderConstraintPre c ++ "RIGHT JOIN " ++ render_tf relation ++
             renderConstraintSuffix c
       | .fullOuter c =>
           renderConstraintPre c ++ "FULL JOIN " ++ render_tf relation ++
             renderConstraintSuffix c
       | .other raw => raw ++ " " ++ render_tf relation)

/-- `NATURAL ` before the join keyword. -/
def renderConstraintPre : JoinConstraint → String
  | .natural => "NATURAL "
  | _ => ""

/-- ` ON expr` / ` USING(cols)` after the joined relation. -/
def renderConstraintSuffix : JoinConstraint → String
  | .on e => " ON " ++ render_expr e
  | .using_ cols => " USING(" ++ commaJoin cols ++ ")"
  | .natural => ""
  | .none_ => ""

def render_join_list : List Join → String
  | [] => ""
  | j :: rest => render_join j ++ render_join_list rest

/-- `Display` for `TableFactor`. -/
def render_tf : TableFactor → String
  | .table name => name
  | .derived lateral subquery alias_ =>
      (if lateral then "LATERAL " else "") ++ "(" ++ render_query subquery ++
        ")" ++
        (match alias_ with
         | none => ""
         | some a => " AS " ++ a)
  | .nestedJoin table_with_joins alias_ =>
      "(" ++ render_twj table_with_joins ++ ")" ++
        (match alias_ with
         | none => ""
         | some a => " AS " ++ a)
  | .other raw => raw

/-- `Display` for `Values`. -/
def render_values : Values → String
  | .mk explicit_row rows =>
      "VALUES " ++ commaJoin (render_rows explicit_row rows)

def render_rows (explicit_row : Bool) : List (List Expr) → List String
  | [] => []
  | r :: rest =>
      ((if explicit_row then "ROW" else "") ++ "(" ++
          commaJoin (render_expr_list r) ++ ")") ::
        render_rows explicit_row rest

/-- `Display` for `Assignment`: `target = value`. -/
def render_assignment : Assignment → String
  | .mk target value => target ++ " = " ++ render_expr value

def render_assignment_list : List Assignment → List String
  | [] => []
  | a :: rest => render_assignment a :: render_assignment_list rest

/-- `Display` for `Delete` (opaque clauses print their carried text). -/
def render_delete : Delete → String
  | .mk tables from_ using_ selection returning order_by limit =>
      "DELETE" ++
      (match tables with
       | [] => ""
       | ts => " " ++ commaJoin ts) ++
      " " ++ from_ ++
      (match using_ with
       | none => ""
       | some u => " USING " ++ u) ++
      (match selection with
       | none => ""
       | some e => " WHERE " ++ render_expr e) ++
      optClause returning ++
      (match order_by with
       | [] => ""
       | os => " ORDER BY " ++ commaJoin (render_order_by_list os)) ++
      (match limit with
       | none => ""
       | some e => " LIMIT " ++ render_expr e)

/-- `Display` for `OrderByExpr`. -/
def render_order_by : OrderByExpr → String
  | .mk expr options with_fill =>
      render_expr expr ++
        (if options.data.isEmpty then "" else " " ++ options) ++
        optClause with_fill

def render_order_by_list : List OrderByExpr → List String
  | [] => []
  | o :: rest => render_order_by o :: render_order_by_list rest

/-- `Display` for `Insert` on the modelled fragment. -/
def render_insert : Insert → String
  | .mk into columns source on_ returning replace_into priority insert_alias
      settings partitioned or_ after_columns overwrite table ignore
      table_alias assignments has_table_keyword format_clause =>
      (match or_ with
       | some o => "INSERT OR " ++ o ++ " INTO " ++ table ++ " "
       | none =>
           (if replace_into then "REPLACE" else "INSERT") ++
           optClause priority ++
           (if ignore then " IGNORE" else "") ++
           (if into then " INTO" else "") ++
           (if has_table_keyword then " TABLE" else "") ++
           (if overwrite then " OVERWRITE" else "") ++
           " " ++ table ++
           (match table_alias with
            | none => ""
            | some a => " AS " ++ a) ++ " ") ++
      (match insert_alias with
       | none => ""
       | some a => a ++ " ") ++
      (match columns with
       | [] => ""
       | cs => "(" ++ commaJoin cs ++ ") ") ++
      (match partitioned with
       | none => ""
       | some p => "PARTITION (" ++ p ++ ") ") ++
      (match after_columns with
       | [] => ""
       | cs => "(" ++ commaJoin cs ++ ") ") ++
      (match settings with
       | none => ""
       | some s => "SETTINGS " ++ s ++ " ") ++
      (match source with
       | some q => render_query q
       | none =>
           match assignments with
           | [] => "DEFAULT VALUES"
           | _ => "SET " ++ commaJoin (render_assignment_list assignments)) ++
      (match on_ with
       | none => ""
       | some o => " " ++ o) ++
      optClause returning ++ optClause format_clause

/-- `Display` for the modelled `Expr` fragment. -/
def render_expr : Expr → String
  | .identifier name => name
  | .value v => render_value v.value
  | .isNull e => render_expr e ++ " IS NULL"
  | .isNotNull e => render_expr e ++ " IS NOT NULL"
  | .inList expr list negated =>
      render_expr expr ++ (if negated then " NOT" else "") ++ " IN (" ++
        commaJoin (render_expr_list list) ++ ")"
  | .inSubquery expr subquery negated =>
      render_expr expr ++ (if negated then " NOT" else "") ++ " IN (" ++
        render_query subquery ++ ")"
  | .between expr negated low high =>
      render_expr expr ++ (if negated then " NOT" else "") ++ " BETWEEN " ++
        render_expr low ++ " AND " ++ render_expr high
  | .binaryOp left op right =>
      render_expr left ++ " " ++ op ++ " " ++ render_expr right
  | .unaryOp op expr => op ++ render_expr expr
  | .nested e => "(" ++ render_expr e ++ ")"
  | .exists_ subquery negated =>
      (if negated then "NOT " else "") ++ "EXISTS (" ++
        render_query subquery ++ ")"
  | .subquery q => "(" ++ render_query q ++ ")"
  | .like expr negated any escape_char pattern =>
      render_expr expr ++ (if negated then " NOT" else "") ++ " LIKE " ++
        (if any then "ANY " else "") ++ render_expr pattern ++
        (match escape_char with
         | none => ""
         | some c => " ESCAPE " ++ singleQuoted c)
  | .other raw => raw

def render_expr_list : List Expr → List String
  | [] => []
  | e :: rest => render_expr e :: render_expr_list rest

end

/-- `normalize_ast` from `src/normalize.rs`: normalize each statement,
render it followed by `;`, and fold the pieces together with
`acc + " " + item` starting from the empty string (so a nonempty
result always begins with a space). -/
def normalize_ast (ast : List Statement) : String :=
  ((ast.map normalize_stmt).map (fun stmt => render_stmt stmt ++ ";")).foldl
    (fun acc item => acc ++ " " ++ item) ""

/-- The degradation fingerprint of `normalize`:
`format!("Unparseable statement: {} ({})", query, err)`. -/
def unparseable_fingerprint (text err : String) : String :=
  "Unparseable statement: " ++ text ++ " (" ++ err ++ ")"

/-- `normalize` from `src/normalize.rs`, parameterised by the external
`sqlparser` parser (`Parser::parse_sql` with the MySQL dialect):
`.ok` carries the statement list, `.error` the human-readable parser
error used in the degradation fingerprint. -/
def normalize (parse : String → Except String (List Statement))
    (entry : LogEntry) : NormalizedLogEntry :=
  match parse entry.query with
  | .ok ast => { entry := entry, normalized_query := normalize_ast ast }
  | .error err =>
      { entry := entry
        normalized_query := unparseable_fingerprint entry.query err }

/-! ## “Identical up to literal values and IN-list cardinality”

`LitEq*` is the structural-equivalence family the normalizer's contract
is about, *restricted to the positions the normalizer actually visits*:
two trees are related when they agree everywhere except that

* at a literal-value node (`Expr.value`) the two literals may differ
  arbitrarily, and
* at an `IN (...)` list, both lists are empty or both are nonempty with
  related first elements and arbitrary tails (cardinality ignored);

positions the source merely clones — the `with`/CTE clause of a query,
every field of an `Insert` (its `source` body included), and all the
opaque carried payloads — are required to be *equal* (shared variables
in the constructors below). -/

set_option maxHeartbeats 2000000 in
mutual

inductive LitEqStmt : Statement → Statement → Prop where
  | query : LitEqQuery q1 q2 → LitEqStmt (.query q1) (.query q2)
  | insert : LitEqStmt (.insert i) (.insert i)
  | update : LitEqTwj t1 t2 → LitEqAssignmentList a1 a2 → LitEqOptExpr s1 s2 →
      LitEqStmt (.update t1 a1 f s1 r o) (.update t2 a2 f s2 r o)
  | delete : LitEqDelete d1 d2 → LitEqStmt (.delete d1) (.delete d2)
  | other : LitEqStmt (.other raw) (.other raw)

inductive LitEqQuery : Query → Query → Prop where
  | mk : LitEqSetExpr b1 b2 →
      LitEqQuery (.mk w b1 ob lc fe lk fc st fm po)
        (.mk w b2 ob lc fe lk fc st fm po)

inductive LitEqSetExpr : SetExpr → SetExpr → Prop where
  | select : LitEqSelect s1 s2 → LitEqSetExpr (.select s1) (.select s2)
  | query : LitEqQuery q1 q2 → LitEqSetExpr (.query q1) (.query q2)
  | setOperation : LitEqSetExpr l1 l2 → LitEqSetExpr r1 r2 →
      LitEqSetExpr (.setOperation op sqt l1 r1) (.setOperation op sqt l2 r2)
  | values : LitEqValues v1 v2 → LitEqSetExpr (.values v1) (.values v2)
  | insert : LitEqStmt s1 s2 → LitEqSetExpr (.insert s1) (.insert s2)
  | update : LitEqStmt s1 s2 → LitEqSetExpr (.update s1) (.update s2)
  | table : LitEqSetExpr (.table t) (.table t)
  | delete : LitEqStmt s1 s2 → LitEqSetExpr (.delete s1) (.delete s2)

inductive LitEqSelect : Select → Select → Prop where
  | mk : LitEqOptDistinct d1 d2 → LitEqSelectItemList p1 p2 →
      LitEqTwjList f1 f2 → LitEqOptExpr pw1 pw2 → LitEqOptExpr sl1 sl2 →
      LitEqGroupBy g1 g2 → LitEqOptExpr h1 h2 → LitEqOptExpr q1 q2 →
      LitEqSelect
        (.mk tok d1 top tbd p1 ex it f1 lv pw1 sl1 g1 cb db sb h1 q1 wbq vtm
          cby nw fl)
        (.mk tok d2 top tbd p2 ex it f2 lv pw2 sl2 g2 cb db sb h2 q2 wbq vtm
          cby nw fl)

inductive LitEqOptDistinct : Option Distinct → Option Distinct → Prop where
  | none : LitEqOptDistinct none none
  | some : LitEqDistinct d1 d2 → LitEqOptDistinct (some d1) (some d2)

inductive LitEqDistinct : Distinct → Distinct → Prop where
  | distinct : LitEqDistinct .distinct .distinct
  | on : LitEqExprList e1 e2 → LitEqDistinct (.on e1) (.on e2)

inductive LitEqSelectItem : SelectItem → SelectItem → Prop where
  | unnamedExpr : LitEqExpr e1 e2 →
      LitEqSelectItem (.unnamedExpr e1) (.unnamedExpr e2)
  | exprWithAlias : LitEqExpr e1 e2 →
      LitEqSelectItem (.exprWithAlias e1 a) (.exprWithAlias e2 a)
  | qualifiedWildcard : LitEqSelectItem (.qualifiedWildcard r) (.qualifiedWildcard r)
  | wildcard : LitEqSelectItem (.wildcard r) (.wildcard r)

inductive LitEqSelectItemList : List SelectItem → List SelectItem → Prop where
  | nil : LitEqSelectItemList [] []
  | cons : LitEqSelectItem i1 i2 → LitEqSelectItemList l1 l2 →
      LitEqSelectItemList (i1 :: l1) (i2 :: l2)

inductive LitEqTwj : TableWithJoins → TableWithJoins → Prop where
  | mk : LitEqTf r1 r2 → LitEqJoinList j1 j2 →
      LitEqTwj (.mk r1 j1) (.mk r2 j2)

inductive LitEqTwjList : List TableWithJoins → List TableWithJoins → Prop where
  | nil : LitEqTwjList [] []
  | cons : LitEqTwj t1 t2 → LitEqTwjList l1 l2 →
      LitEqTwjList (t1 :: l1) (t2 :: l2)

inductive LitEqTf : TableFactor → TableFactor → Prop where
  | table : LitEqTf (.table n) (.table n)
  | derived : LitEqQuery q1 q2 →
      LitEqTf (.derived lat q1 al) (.derived lat q2 al)
  | nestedJoin : LitEqTwj t1 t2 →
      LitEqTf (.nestedJoin t1 al) (.nestedJoin t2 al)
  | other : LitEqTf (.other r) (.other r)

inductive LitEqJoin : Join → Join → Prop where
  | mk : LitEqTf r1 r2 → LitEqJoinOp o1 o2 →
      LitEqJoin (.mk r1 o1 g) (.mk r2 o2 g)

inductive LitEqJoinList : List Join → List Join → Prop where
  | nil : LitEqJoinList [] []
  | cons : LitEqJoin j1 j2 → LitEqJoinList l1 l2 →
      LitEqJoinList (j1 :: l1) (j2 :: l2)

inductive LitEqJoinOp : JoinOperator → JoinOperator → Prop where
  | inner : LitEqJoinConstraint c1 c2 → LitEqJoinOp (.inner c1) (.inner c2)
  | leftOuter : LitEqJoinConstraint c1 c2 →
      LitEqJoinOp (.leftOuter c1) (.leftOuter c2)
  | rightOuter : LitEqJoinConstraint c1 c2 →
      LitEqJoinOp (.rightOuter c1) (.rightOuter c2)
  | fullOuter : LitEqJoinConstraint c1 c2 →
      LitEqJoinOp (.fullOuter c1) (.fullOuter c2)
  | other : LitEqJoinOp (.other r) (.other r)

inductive LitEqJoinConstraint : JoinConstraint → JoinConstraint → Prop where
  | on : LitEqExpr e1 e2 → LitEqJoinConstraint (.on e1) (.on e2)
  | using_ : LitEqJoinConstraint (.using_ cols) (.using_ cols)
  | natural : LitEqJoinConstraint .natural .natural
  | none_ : LitEqJoinConstraint .none_ .none_

inductive LitEqGroupBy : GroupByExpr → GroupByExpr → Prop where
  | all : LitEqGroupBy (.all m) (.all m)
  | expressions : LitEqExprList e1 e2 →
      LitEqGroupBy (.expressions e1 m) (.expressions e2 m)

inductive LitEqValues : Values → Values → Prop where
  | mk : LitEqRows r1 r2 → LitEqValues (.mk er r1) (.mk er r2)

inductive LitEqRows : List (List Expr) → List (List Expr) → Prop where
  | nil : LitEqRows [] []
  | cons : LitEqExprList r1 r2 → LitEqRows l1 l2 →
      LitEqRows (r1 :: l1) (r2 :: l2)

inductive LitEqExprList : List Expr → List Expr → Prop where
  | nil : LitEqExprList [] []
  | cons : LitEqExpr e1 e2 → LitEqExprList l1 l2 →
      LitEqExprList (e1 :: l1) (e2 :: l2)

inductive LitEqOptExpr : Option Expr → Option Expr → Prop where
  | none : LitEqOptExpr none none
  | some : LitEqExpr e1 e2 → LitEqOptExpr (some e1) (some e2)

inductive LitEqAssignment : Assignment → Assignment → Prop where
  | mk : LitEqExpr v1 v2 → LitEqAssignment (.mk t v1) (.mk t v2)

inductive LitEqAssignmentList : List Assignment → List Assignment → Prop where
  | nil : LitEqAssignmentList [] []
  | cons : LitEqAssignment a1 a2 → LitEqAssignmentList l1 l2 →
      LitEqAssignmentList (a1 :: l1) (a2 :: l2)

inductive LitEqDelete : Delete → Delete → Prop where
  | mk : LitEqOptExpr s1 s2 → LitEqObeList o1 o2 →
      LitEqDelete (.mk tb fr us s1 re o1 li) (.mk tb fr us s2 re o2 li)

inductive LitEqObe : OrderByExpr → OrderByExpr → Prop where
  | mk : LitEqExpr e1 e2 → LitEqObe (.mk e1 op wf) (.mk e2 op wf)

inductive LitEqObeList : List OrderByExpr → List OrderByExpr → Prop where
  | nil : LitEqObeList [] []
  | cons : LitEqObe o1 o2 → LitEqObeList l1 l2 →
      LitEqObeList (o1 :: l1) (o2 :: l2)

inductive LitEqExpr : Expr → Expr → Prop where
  | identifier : LitEqExpr (.identifier n) (.identifier n)
  | value : LitEqExpr (.value v1) (.value v2)
  | isNull : LitEqExpr e1 e2 → LitEqExpr (.isNull e1) (.isNull e2)
  | isNotNull : LitEqExpr e1 e2 → LitEqExpr (.isNotNull e1) (.isNotNull e2)
  | inListNil : LitEqExpr e1 e2 → LitEqExpr (.inList e1 [] n) (.inList e2 [] n)
  | inListCons : LitEqExpr e1 e2 → LitEqExpr a1 a2 →
      LitEqExpr (.inList e1 (a1 :: t1) n) (.inList e2 (a2 :: t2) n)
  | inSubquery : LitEqExpr e1 e2 → LitEqQuery q1 q2 →
      LitEqExpr (.inSubquery e1 q1 n) (.inSubquery e2 q2 n)
  | between : LitEqExpr e1 e2 → LitEqExpr l1 l2 → LitEqExpr h1 h2 →
      LitEqExpr (.between e1 n l1 h1) (.between e2 n l2 h2)
  | binaryOp : LitEqExpr l1 l2 → LitEqExpr r1 r2 →
      LitEqExpr (.binaryOp l1 op r1) (.binaryOp l2 op r2)
  | unaryOp : LitEqExpr e1 e2 → LitEqExpr (.unaryOp op e1) (.unaryOp op e2)
  | nested : LitEqExpr e1 e2 → LitEqExpr (.nested e1) (.nested e2)
  | exists_ : LitEqQuery q1 q2 → LitEqExpr (.exists_ q1 n) (.exists_ q2 n)
  | subquery : LitEqQuery q1 q2 → LitEqExpr (.subquery q1) (.subquery q2)
  | like : LitEqExpr e1 e2 → LitEqExpr p1 p2 →
      LitEqExpr (.like e1 n a esc p1) (.like e2 n a esc p2)
  | other : LitEqExpr (.other r) (.other r)

inductive LitEqStmtList : List Statement → List Statement → Prop where
  | nil : LitEqStmtList [] []
  | cons : LitEqStmt s1 s2 → LitEqStmtList l1 l2 →
      LitEqStmtList (s1 :: l1) (s2 :: l2)

end

/-! Soundness: related trees normalize to *equal* trees — the literal
and IN-cardinality differences are erased, everything else was already
equal. -/

set_option maxHeartbeats 4000000 in
mutual

theorem litEq_sound_stmt :
    ∀ {a b : Statement}, LitEqStmt a b → normalize_stmt a = normalize_stmt b
  | _, _, .query h => by
      simp only [normalize_stmt]; rw [litEq_sound_query h]
  | _, _, .insert => rfl
  | _, _, .update h1 h2 h3 => by
      simp only [normalize_stmt]
      rw [litEq_sound_twj h1, litEq_sound_assignment_list h2,
        litEq_sound_opt_expr h3]
  | _, _, .delete h => by
      simp only [normalize_stmt]; rw [litEq_sound_delete h]
  | _, _, .other => rfl

theorem litEq_sound_query :
    ∀ {a b : Query}, LitEqQuery a b → normalize_query a = normalize_query b
  | _, _, .mk h => by
      simp only [normalize_query]; rw [litEq_sound_set_expr h]

theorem litEq_sound_set_expr :
    ∀ {a b : SetExpr}, LitEqSetExpr a b →
      normalize_set_expr a = normalize_set_expr b
  | _, _, .select h => by
      simp only [normalize_set_expr]; rw [litEq_sound_select h]
  | _, _, .query h => by
      simp only [normalize_set_expr]; rw [litEq_sound_query h]
  | _, _, .setOperation h1 h2 => by
      simp only [normalize_set_expr]
      rw [litEq_sound_set_expr h1, litEq_sound_set_expr h2]
  | _, _, .values h => by
      simp only [normalize_set_expr]; rw [litEq_sound_values h]
  | _, _, .insert h => by
      simp only [normalize_set_expr]; rw [litEq_sound_stmt h]
  | _, _, .update h => by
      simp only [normalize_set_expr]; rw [litEq_sound_stmt h]
  | _, _, .table => rfl
  | _, _, .delete h => by
      simp only [normalize_set_expr]; rw [litEq_sound_stmt h]

theorem litEq_sound_select :
    ∀ {a b : Select}, LitEqSelect a b → normalize_select a = normalize_select b
  | _, _, .mk h1 h2 h3 h4 h5 h6 h7 h8 => by
      simp only [normalize_select]
      rw [litEq_sound_opt_distinct h1, litEq_sound_select_item_list h2,
        litEq_sound_twj_list h3, litEq_sound_opt_expr h4,
        litEq_sound_opt_expr h5, litEq_sound_group_by h6,
        litEq_sound_opt_expr h7, litEq_sound_opt_expr h8]

theorem litEq_sound_opt_distinct :
    ∀ {a b : Option Distinct}, LitEqOptDistinct a b →
      normalize_opt_distinct a = normalize_opt_distinct b
  | _, _, .none => rfl
  | _, _, .some h => by
      simp only [normalize_opt_distinct]; rw [litEq_sound_distinct h]

theorem litEq_sound_distinct :
    ∀ {a b : Distinct}, LitEqDistinct a b →
      normalize_distinct a = normalize_distinct b
  | _, _, .distinct => rfl
  | _, _, .on h => by
      simp only [normalize_distinct]; rw [litEq_sound_expr_list h]

theorem litEq_sound_select_item :
    ∀ {a b : SelectItem}, LitEqSelectItem a b →
      normalize_select_item a = normalize_select_item b
  | _, _, .unnamedExpr h => by
      simp only [normalize_select_item]; rw [litEq_sound_expr h]
  | _, _, .exprWithAlias h => by
      simp only [normalize_select_item]; rw [litEq_sound_expr h]
  | _, _, .qualifiedWildcard => rfl
  | _, _, .wildcard => rfl

theorem litEq_sound_select_item_list :
    ∀ {a b : List SelectItem}, LitEqSelectItemList a b →
      normalize_select_item_list a = normalize_select_item_list b
  | _, _, .nil => rfl
  | _, _, .cons h hl => by
      simp only [normalize_select_item_list]
      rw [litEq_sound_select_item h, litEq_sound_select_item_list hl]

theorem litEq_sound_twj :
    ∀ {a b : TableWithJoins}, LitEqTwj a b →
      normalize_table_with_joins a = normalize_table_with_joins b
  | _, _, .mk h1 h2 => by
      simp only [normalize_table_with_joins]
      rw [litEq_sound_tf h1, litEq_sound_join_list h2]

theorem litEq_sound_twj_list :
    ∀ {a b : List TableWithJoins}, LitEqTwjList a b →
      normalize_twj_list a = normalize_twj_list b
  | _, _, .nil => rfl
  | _, _, .cons h hl => by
      simp only [normalize_twj_list]
      rw [litEq_sound_twj h, litEq_sound_twj_list hl]

theorem litEq_sound_tf :
    ∀ {a b : TableFactor}, LitEqTf a b →
      normalize_table_factor a = normalize_table_factor b
  | _, _, .table => rfl
  | _, _, .derived h => by
      simp only [normalize_table_factor]; rw [litEq_sound_query h]
  | _, _, .nestedJoin h => by
      simp only [normalize_table_factor]; rw [litEq_sound_twj h]
  | _, _, .other => rfl

theorem litEq_sound_join :
    ∀ {a b : Join}, LitEqJoin a b → normalize_join a = normalize_join b
  | _, _, .mk h1 h2 => by
      simp only [normalize_join]
      rw [litEq_sound_tf h1, litEq_sound_join_op h2]

theorem litEq_sound_join_list :
    ∀ {a b : List Join}, LitEqJoinList a b →
      normalize_join_list a = normalize_join_list b
  | _, _, .nil => rfl
  | _, _, .cons h hl => by
      simp only [normalize_join_list]
      rw [litEq_sound_join h, litEq_sound_join_list hl]

theorem litEq_sound_join_op :
    ∀ {a b : JoinOperator}, LitEqJoinOp a b →
      normalize_join_operator a = normalize_join_operator b
  | _, _, .inner h => by
      simp only [normalize_join_operator]; rw [litEq_sound_join_constraint h]
  | _, _, .leftOuter h => by
      simp only [normalize_join_operator]; rw [litEq_sound_join_constraint h]
  | _, _, .rightOuter h => by
      simp only [normalize_join_operator]; rw [litEq_sound_join_constraint h]
  | _, _, .fullOuter h => by
      simp only [normalize_join_operator]; rw [litEq_sound_join_constraint h]
  | _, _, .other => rfl

theorem litEq_sound_join_constraint :
    ∀ {a b : JoinConstraint}, LitEqJoinConstraint a b →
      normalize_join_constraint a = normalize_join_constraint b
  | _, _, .on h => by
      simp only [normalize_join_constraint]; rw [litEq_sound_expr h]
  | _, _, .using_ => rfl
  | _, _, .natural => rfl
  | _, _, .none_ => rfl

theorem litEq_sound_group_by :
    ∀ {a b : GroupByExpr}, LitEqGroupBy a b →
      normalize_group_by a = normalize_group_by b
  | _, _, .all => rfl
  | _, _, .expressions h => by
      simp only [normalize_group_by]; rw [litEq_sound_expr_list h]

theorem litEq_sound_values :
    ∀ {a b : Values}, LitEqValues a b → normalize_values a = normalize_values b
  | _, _, .mk h => by
      simp only [normalize_values]; rw [litEq_sound_rows h]

theorem litEq_sound_rows :
    ∀ {a b : List (List Expr)}, LitEqRows a b →
      normalize_rows a = normalize_rows b
  | _, _, .nil => rfl
  | _, _, .cons h hl => by
      simp only [normalize_rows]
      rw [litEq_sound_expr_list h, litEq_sound_rows hl]

theorem litEq_sound_expr_list :
    ∀ {a b : List Expr}, LitEqExprList a b →
      normalize_expr_list a = normalize_expr_list b
  | _, _, .nil => rfl
  | _, _, .cons h hl => by
      simp only [normalize_expr_list]
      rw [litEq_sound_expr h, litEq_sound_expr_list hl]

theorem litEq_sound_opt_expr :
    ∀ {a b : Option Expr}, LitEqOptExpr a b →
      normalize_opt_expr a = normalize_opt_expr b
  | _, _, .none => rfl
  | _, _, .some h => by
      simp only [normalize_opt_expr]; rw [litEq_sound_expr h]

theorem litEq_sound_assignment :
    ∀ {a b : Assignment}, LitEqAssignment a b →
      normalize_assignment a = normalize_assignment b
  | _, _, .mk h => by
      simp only [normalize_assignment]; rw [litEq_sound_expr h]

theorem litEq_sound_assignment_list :
    ∀ {a b : List Assignment}, LitEqAssignmentList a b →
      normalize_assignment_list a = normalize_assignment_list b
  | _, _, .nil => rfl
  | _, _, .cons h hl => by
      simp only [normalize_assignment_list]
      rw [litEq_sound_assignment h, litEq_sound_assignment_list hl]

theorem litEq_sound_delete :
    ∀ {a b : Delete}, LitEqDelete a b → normalize_delete a = normalize_delete b
  | _, _, .mk h1 h2 => by
      simp only [normalize_delete]
      rw [litEq_sound_opt_expr h1, litEq_sound_obe_list h2]

theorem litEq_sound_obe :
    ∀ {a b : OrderByExpr}, LitEqObe a b →
      normalize_order_by a = normalize_order_by b
  | _, _, .mk h => by
      simp only [normalize_order_by]; rw [litEq_sound_expr h]

theorem litEq_sound_obe_list :
    ∀ {a b : List OrderByExpr}, LitEqObeList a b →
      normalize_order_by_list a = normalize_order_by_list b
  | _, _, .nil => rfl
  | _, _, .cons h hl => by
      simp only [normalize_order_by_list]
      rw [litEq_sound_obe h, litEq_sound_obe_list hl]

theorem litEq_sound_expr :
    ∀ {a b : Expr}, LitEqExpr a b → normalize_expr a = normalize_expr b
  | _, _, .identifier => rfl
  | _, _, .value => rfl
  | _, _, .isNull h => by
      simp only [normalize_expr]; rw [litEq_sound_expr h]
  | _, _, .isNotNull h => by
      simp only [normalize_expr]; rw [litEq_sound_expr h]
  | _, _, .inListNil h => by
      simp only [normalize_expr]; rw [litEq_sound_expr h]
  | _, _, .inListCons h ha => by
      simp only [normalize_expr]
      rw [litEq_sound_expr h, litEq_sound_expr ha]
  | _, _, .inSubquery h hq => by
      simp only [normalize_expr]
      rw [litEq_sound_expr h, litEq_sound_query hq]
  | _, _, .between h hl hh => by
      simp only [normalize_expr]
      rw [litEq_sound_expr h, litEq_sound_expr hl, litEq_sound_expr hh]
  | _, _, .binaryOp hl hr => by
      simp only [normalize_expr]
      rw [litEq_sound_expr hl, litEq_sound_expr hr]
  | _, _, .unaryOp h => by
      simp only [normalize_expr]; rw [litEq_sound_expr h]
  | _, _, .nested h => by
      simp only [normalize_expr]; rw [litEq_sound_expr h]
  | _, _, .exists_ hq => by
      simp only [normalize_expr]; rw [litEq_sound_query hq]
  | _, _, .subquery hq => by
      simp only [normalize_expr]; rw [litEq_sound_query hq]
  | _, _, .like h hp => by
      simp only [normalize_expr]
      rw [litEq_sound_expr h, litEq_sound_expr hp]
  | _, _, .other => rfl

end

/-- Lift soundness to statement lists and hence to whole fingerprints:
related statement lists get the same `normalize_ast` text. -/
theorem litEq_sound_stmt_list :
    ∀ {a b : List Statement}, LitEqStmtList a b →
      a.map normalize_stmt = b.map normalize_stmt
  | _, _, .nil => rfl
  | _, _, .cons h hl => by
      simp only [List.map]
      rw [litEq_sound_stmt h, litEq_sound_stmt_list hl]

theorem litEq_normalize_ast_eq {a b : List Statement}
    (h : LitEqStmtList a b) : normalize_ast a = normalize_ast b := by
  unfold normalize_ast
  rw [litEq_sound_stmt_list h]

/-! ## Specification-side descriptions and concrete inputs used in the
claim statements -/

/-- The subsequence of query times an entry list feeds to the
aggregator under a given key. -/
def aggTimes (l : List LogEntry) (q : String) : List Int :=
  (l.filter (fun e => e.query == q)).map (fun e => e.query_time)

/-- The per-key recurrence the specification describes: first
occurrence creates the entry via `new`, each later occurrence updates
it via `update_with`. -/
def aggFoldKey (q : String) : Option AggregateLogEntry → List Int →
    Option AggregateLogEntry
  | acc, [] => acc
  | acc, t :: ts =>
      aggFoldKey q
        (some (match acc with
               | none => AggregateLogEntry.new q t
               | some e => e.update_with t)) ts

/-- A record with the given fingerprint text and query time
(other fields immaterial to filtering and aggregation). -/
def mkEntry (q : String) (t : Int) : LogEntry :=
  { timestamp := "", user := "", host := "", query_time := t, lock_time := 0
    rows_sent := 0, rows_examined := 0, query := q }

/-- A numeric literal expression. -/
def numExpr (n : String) : Expr :=
  .value { value := .number n false, span := Span.empty }

/-- A bare query wrapper: no CTEs, no trailing clauses. -/
def plainQuery (body : SetExpr) : Query :=
  .mk none body none none none [] none none none []

/-- `SELECT * FROM ... [WHERE ...]` with every other clause absent. -/
def baseSelect (from_ : List TableWithJoins) (selection : Option Expr) :
    Select :=
  .mk () none none false [.wildcard "*"] none none from_ [] none selection
    (.expressions [] []) [] [] [] none none false none none [] ""

/-- `SELECT * FROM t WHERE <selection>;` as a statement. -/
def selectWhere (selection : Option Expr) : Statement :=
  .query (plainQuery (.select (baseSelect [.mk (.table "t") []] selection)))

/-- `VALUES (<n>)` as a query (an `INSERT` source or CTE body). -/
def valuesQuery (n : String) : Query :=
  plainQuery (.values (.mk false [[numExpr n]]))

/-- `INSERT [IGNORE] INTO t VALUES (<n>)` with the given `ignore`
flag. -/
def insertValues (ig : Bool) (n : String) : Insert :=
  .mk true [] (some (valuesQuery n)) none none false none none none none
    none [] false "t" ig none [] false none

/-- `WITH c AS (VALUES (<n>)) SELECT * FROM c;` — a literal inside a
common-table-expression. -/
def cteStmt (n : String) : Statement :=
  .query (.mk (some (.mk false [.mk "c" (valuesQuery n)]))
    (.select (baseSelect [.mk (.table "c") []] none)) none none none []
    none none none [])

/-- The adversarial (but admissible) external-parser behaviour used to
exhibit a fingerprint collision between two distinct unparseable
texts: the parser error for `"a"` is `"x) (y"`, the error for
everything else is `"y"`. -/
def parseAdv : String → Except String (List Statement) :=
  fun t => if t = "a" then .error "x) (y" else .error "y"

/-- A truncated log: header and metrics complete, the query
accumulation cut off by end of input before any `;`. -/
def truncatedLog : List String :=
  [ "# Time: 2019-07-30T13:01:34.887103Z",
    "# User@Host: foo[bar] @ h [1.2.3.4]",
    "# Query_time: 1.0  Lock_time: 0.1  Rows_sent: 1  Rows_examined: 1",
    "SELECT *",
    "FROM t" ]

/-- A complete single-record log block (used to show that a fatal error
later in the stream also discards records already extracted). -/
def goodBlock : List String :=
  [ "# Time: 2019-07-30T13:01:34.887103Z",
    "# User@Host: foo[bar] @ h [1.2.3.4]",
    "# Query_time: 1.0  Lock_time: 0.1  Rows_sent: 1  Rows_examined: 1",
    "SELECT 1;" ]

/-! ## Aggregator lemmas -/

theorem lookup_updateKey_self (m : AggMap) (k : String) (t : Int) :
    (m.updateKey k t).lookup k =
      (m.lookup k).map (fun e => e.update_with t) := by
  induction m with
  | nil => rfl
  | cons p m ih =>
      by_cases h : p.1 = k
      · simp [AggMap.updateKey, AggMap.lookup, h]
      · have hb : (p.1 == k) = false := by simpa using h
        simp only [AggMap.updateKey, List.map, AggMap.lookup, hb,
          Bool.false_eq_true, if_false] at ih ⊢
        exact ih

theorem lookup_updateKey_ne (m : AggMap) (k k' : String) (t : Int)
    (h : k' ≠ k) : (m.updateKey k t).lookup k' = m.lookup k' := by
  induction m with
  | nil => rfl
  | cons p m ih =>
      by_cases hk : p.1 = k
      · have hk' : (k == k') = false := by
          simpa using fun e => h e.symm
        simp only [AggMap.updateKey, List.map, AggMap.lookup, hk, hk',
          Bool.false_eq_true, if_false, beq_self_eq_true, if_true] at ih ⊢
        exact ih
      · have hkb : (p.1 == k) = false := by simpa using hk
        simp only [AggMap.updateKey, List.map, AggMap.lookup, hkb,
          Bool.false_eq_true, if_false] at ih ⊢
        by_cases hk2 : p.1 = k'
        · simp [hk2]
        · have : (p.1 == k') = false := by simpa using hk2
          simp only [this, Bool.false_eq_true, if_false]
          exact ih

theorem lookup_append_single (m : AggMap) (k : String)
    (v : AggregateLogEntry) (k' : String) :
    (m ++ [(k, v)]).lookup k' =
      match m.lookup k' with
      | some e => some e
      | none => if k == k' then some v else none := by
  induction m with
  | nil => simp [AggMap.lookup]
  | cons p m ih =>
      simp only [List.cons_append, AggMap.lookup]
      by_cases h : p.1 = k'
      · simp [h]
      · have hb : (p.1 == k') = false := by simpa using h
        simp only [hb, Bool.false_eq_true, if_false]
        exact ih

theorem containsKey_eq_isSome (m : AggMap) (k : String) :
    m.containsKey k = (m.lookup k).isSome := by
  induction m with
  | nil => rfl
  | cons p m ih =>
      by_cases h : p.1 = k
      · simp [AggMap.containsKey, AggMap.lookup, h]
      · have hb : (p.1 == k) = false := by simpa using h
        simp only [AggMap.containsKey, List.any, AggMap.lookup, hb,
          Bool.false_or, Bool.false_eq_true, if_false] at ih ⊢
        exact ih

theorem foldl_aggregateStep_lookup (l : List LogEntry) (m : AggMap)
    (q : String) :
    (l.foldl aggregateStep m).lookup q =
      aggFoldKey q (m.lookup q) (aggTimes l q) := by
  induction l generalizing m with
  | nil => simp [aggTimes, aggFoldKey]
  | cons e l ih =>
      simp only [List.foldl]
      rw [ih]
      by_cases hq : e.query = q
      · subst hq
        have htimes : aggTimes (e :: l) e.query =
            e.query_time :: aggTimes l e.query := by
          simp [aggTimes]
        rw [htimes]
        by_cases hc : m.containsKey e.query
        · have hs : (m.lookup e.query).isSome := by
            rw [← containsKey_eq_isSome]; exact hc
          obtain ⟨e0, he0⟩ := Option.isSome_iff_exists.mp hs
          simp only [aggregateStep, hc, if_true]
          rw [lookup_updateKey_self, he0]
          rfl
        · have hn : m.lookup e.query = none := by
            rw [← Option.not_isSome_iff_eq_none, ← containsKey_eq_isSome]
            simpa using hc
          simp only [aggregateStep, hc, Bool.false_eq_true, if_false]
          rw [lookup_append_single, hn]
          simp [aggFoldKey]
      · have hbeq : (e.query == q) = false := by simpa using hq
        have htimes : aggTimes (e :: l) q = aggTimes l q := by
          simp [aggTimes, List.filter, hbeq]
        rw [htimes]
        by_cases hc : m.containsKey e.query
        · simp only [aggregateStep, hc, if_true]
          rw [lookup_updateKey_ne _ _ _ _ (fun h => hq h.symm)]
        · simp only [aggregateStep, hc, Bool.false_eq_true, if_false]
          rw [lookup_append_single]
          simp only [hbeq, Bool.false_eq_true, if_false]
          cases m.lookup q <;> rfl

theorem aggregate_entries_lookup (l : List LogEntry) (q : String) :
    (aggregate_entries l).lookup q = aggFoldKey q none (aggTimes l q) := by
  unfold aggregate_entries
  rw [foldl_aggregateStep_lookup]
  rfl

theorem aggFoldKey_count_pos (q : String) :
    ∀ (ts : List Int) (acc : Option AggregateLogEntry)
      (e : AggregateLogEntry),
      (∀ e0, acc = some e0 → 1 ≤ e0.count) →
      aggFoldKey q acc ts = some e → 1 ≤ e.count := by
  intro ts
  induction ts with
  | nil =>
      intro acc e hacc h
      exact hacc e h
  | cons t ts ih =>
      intro acc e hacc h
      match acc, h with
      | none, h =>
          refine ih _ _ ?_ h
          intro e0 he0
          cases he0
          simp [AggregateLogEntry.new]
      | some e0, h =>
          refine ih _ _ ?_ h
          intro e1 he1
          cases he1
          have := hacc e0 rfl
          simp only [AggregateLogEntry.update_with]
          omega

/-! ## Claim theorems -/

/-- C2: the aggregator's per-key behaviour is exactly the specified
recurrence — a first occurrence creates
`{count=1, total=avg=max=t}`; each later occurrence performs
`total += t`, `max = max(max,t)`,
`avg = (avg*count + t) / (count+1)` with truncating division on the
*old* count, then `count += 1`; the map entry for any key after
aggregating any entry list is the fold of that recurrence over the
key's query times in order; and `aggregate [(f,100),(f,300)]` yields
`count=2, total=400, avg=200, max=300`. -/
theorem aggregate_recurrence_spec :
    (∀ (q : String) (t : Int), AggregateLogEntry.new q t =
      { query := q, count := 1, total_query_time := t, avg_query_time := t,
        max_query_time := t })
    ∧ (∀ (e : AggregateLogEntry) (t : Int), e.update_with t =
      { query := e.query, count := e.count + 1,
        total_query_time := e.total_query_time + t,
        avg_query_time := (e.avg_query_time * e.count + t).tdiv (e.count + 1),
        max_query_time := max e.max_query_time t })
    ∧ (∀ (l : List LogEntry) (q : String),
        (aggregate_entries l).lookup q = aggFoldKey q none (aggTimes l q))
    ∧ ((aggregate_entries [mkEntry "f" 100, mkEntry "f" 300]).lookup "f" =
        some { query := "f", count := 2, total_query_time := 400,
               avg_query_time := 200, max_query_time := 300 }) :=
  ⟨fun _ _ => rfl, fun _ _ => rfl, aggregate_entries_lookup, by decide⟩

/-- C10: `max_query_time` never decreases under an update, and every
entry held in an aggregate map has `count ≥ 1`. -/
theorem aggregate_invariants :
    (∀ (e : AggregateLogEntry) (t : Int),
        e.max_query_time ≤ (e.update_with t).max_query_time)
    ∧ (∀ (l : List LogEntry) (q : String) (e : AggregateLogEntry),
        (aggregate_entries l).lookup q = some e → 1 ≤ e.count) := by
  constructor
  · intro e t
    simp only [AggregateLogEntry.update_with]
    exact le_max_left _ _
  · intro l q e h
    rw [aggregate_entries_lookup] at h
    exact aggFoldKey_count_pos q (aggTimes l q) none e
      (fun e0 h0 => nomatch h0) h

/-- Witness for C10 at a concrete one-entry log. -/
theorem aggregate_invariants_witness :
    1 ≤ (AggregateLogEntry.new "f" 100).count :=
  aggregate_invariants.2 [mkEntry "f" 100] "f" (AggregateLogEntry.new "f" 100)
    (by decide)

/-- C6: an empty input extracts to zero records (for any timestamp
parser), aggregating nothing yields the empty map — and the
end-of-pipeline summary of `src/summarize.rs` over that empty map is
*not* a defined empty result: its unguarded `total / total_queries`
divides by zero (a Rust panic, `none` here). -/
theorem empty_pipeline_behaviour :
    (∀ ts : String → Option String, parse_log ts [] = .ok [])
    ∧ aggregate_entries [] = ([] : AggMap)
    ∧ summarize_aggregates [] = none := by
  refine ⟨fun ts => ?_, rfl, rfl⟩
  simp [parse_log, parseLogAux]

/-- C9 (amended): the query-time filters compare inclusively against
`query_time` truncated to whole milliseconds, but `create_filter`
interprets the filter value in *seconds* and multiplies by 1000, so
`query_time>500` compiles to a threshold of 500000 ms (500 s), not
500 ms. -/
theorem query_time_filter_semantics :
    (∀ (rm : String → String → Bool) (th : Int) (e : LogEntry),
        Filter.matches rm (.queryTimeGreaterThan th) e =
          decide (th ≤ wholeMilliseconds e.query_time))
    ∧ (∀ (rm : String → String → Bool) (th : Int) (e : LogEntry),
        Filter.matches rm (.queryTimeLessThan th) e =
          decide (wholeMilliseconds e.query_time ≤ th))
    ∧ (∀ rc : String → Bool,
        create_filter rc "query_time" ">" "500" =
          .ok (.queryTimeGreaterThan 500000))
    ∧ (∀ (rm : String → String → Bool) (e : LogEntry),
        Filter.matches rm (.queryTimeGreaterThan 500000) e = true ↔
          500000 ≤ wholeMilliseconds e.query_time) := by
  refine ⟨fun rm th e => rfl, fun rm th e => rfl, fun rc => rfl,
    fun rm e => ?_⟩
  simp [Filter.matches]

/-! ## Fingerprint string lemmas -/

theorem string_data_append (s t : String) : (s ++ t).data = s.data ++ t.data := by
  cases s; cases t; rfl

theorem string_data_inj {s t : String} (h : s.data = t.data) : s = t := by
  cases s; cases t; exact congrArg String.mk h

theorem foldl_sep_data (l : List String) :
    ∀ acc : String, ∃ r : List Char,
      (l.foldl (fun a i => a ++ " " ++ i) acc).data = acc.data ++ r := by
  induction l with
  | nil => intro acc; exact ⟨[], by simp⟩
  | cons x xs ih =>
      intro acc
      obtain ⟨r, hr⟩ := ih (acc ++ " " ++ x)
      refine ⟨' ' :: x.data ++ r, ?_⟩
      simp only [List.foldl, hr, string_data_append]
      simp

/-- A fingerprint of a successfully parsed statement list is either
empty (zero statements) or starts with the separating space the fold
prepends. -/
theorem normalize_ast_empty_or_space (ast : List Statement) :
    normalize_ast ast = "" ∨ (normalize_ast ast).data.head? = some ' ' := by
  unfold normalize_ast
  cases h : (ast.map normalize_stmt).map (fun stmt => render_stmt stmt ++ ";") with
  | nil => exact Or.inl rfl
  | cons x xs =>
      right
      obtain ⟨r, hr⟩ := foldl_sep_data xs ("" ++ " " ++ x)
      simp only [List.foldl, hr, string_data_append]
      rfl

theorem unparseable_head (text err : String) :
    (unparseable_fingerprint text err).data.head? = some 'U' := by
  simp only [unparseable_fingerprint, string_data_append, List.append_assoc]
  rfl

/-- An unparseable-statement fingerprint (starting with `U`) never
equals a parsed fingerprint (empty or starting with a space). -/
theorem unparseable_ne_parsed (ast : List Statement) (text err : String) :
    normalize_ast ast ≠ unparseable_fingerprint text err := by
  intro h
  have hu := unparseable_head text err
  rcases normalize_ast_empty_or_space ast with h0 | h0
  · rw [h0] at h
    rw [← h] at hu
    simp at hu
  · rw [h] at h0
    rw [hu] at h0
    simp at h0

/-- With equal parser-error strings, distinct original texts give
distinct degradation fingerprints. -/
theorem unparseable_injective_text (t1 t2 err : String) (h : t1 ≠ t2) :
    unparseable_fingerprint t1 err ≠ unparseable_fingerprint t2 err := by
  intro he
  apply h
  have hd := congrArg String.data he
  simp only [unparseable_fingerprint, string_data_append,
    List.append_assoc] at hd
  have := List.append_cancel_left hd
  exact string_data_inj (List.append_cancel_right this)

/-- C9 (counterexample): a record with `query_time` = 600 ms satisfies
the claim's retention condition (600 ms ≥ 500 ms) yet the filter
compiled from `query_time>500` rejects it, because the threshold is
500000 ms. -/
theorem query_time_filter_500_counterexample :
    create_filter (fun _ => true) "query_time" ">" "500" =
      .ok (.queryTimeGreaterThan 500000)
    ∧ wholeMilliseconds (mkEntry "q" 600000).query_time = 600
    ∧ (500 : Int) ≤ 600
    ∧ Filter.matches (fun _ _ => false) (.queryTimeGreaterThan 500000)
        (mkEntry "q" 600000) = false :=
  ⟨rfl, by decide, by decide, by decide⟩

/-- C3 (counterexample): `normalize_value` does not rewrite literals
kind-by-kind — `NULL` is *not* left unchanged, a string literal does
not become an empty literal of its kind, and a boolean and a number
collapse to the same placeholder. -/
theorem normalize_value_counterexample :
    normalize_value .null = .placeholder "?"
    ∧ normalize_value .null ≠ .null
    ∧ normalize_value (.singleQuotedString "abc") ≠ .singleQuotedString ""
    ∧ normalize_value (.boolean false) = normalize_value (.number "7" false) := by
  refine ⟨rfl, by decide, by decide, rfl⟩

/-- C3 (amended): every literal-value node, of every kind — numbers,
strings of all flavours, booleans and `NULL` alike — is rewritten to
the single placeholder `?`, with its source span cleared. -/
theorem normalize_value_placeholder :
    (∀ v : Value, normalize_value v = .placeholder "?")
    ∧ (∀ vs : ValueWithSpan,
        normalize_value_with_span vs =
          { value := .placeholder "?", span := Span.empty })
    ∧ (∀ vs : ValueWithSpan,
        normalize_expr (.value vs) =
          .value { value := .placeholder "?", span := Span.empty }) :=
  ⟨fun _ => rfl, fun _ => rfl, fun _ => rfl⟩

/-- C8: `IN (...)` lists collapse to their canonicalized first element
(an empty list staying empty); consequently `IN (1,2,3)` and `IN (1)`
fingerprint identically while `IN ()` and `IN (1)` fingerprint
differently. -/
theorem in_list_collapse :
    (∀ (e a : Expr) (rest : List Expr) (n : Bool),
        normalize_expr (.inList e (a :: rest) n) =
          .inList (normalize_expr e) [normalize_expr a] n)
    ∧ (∀ (e : Expr) (n : Bool),
        normalize_expr (.inList e [] n) = .inList (normalize_expr e) [] n)
    ∧ normalize_ast [selectWhere (some (.inList (.identifier "x")
        [numExpr "1", numExpr "2", numExpr "3"] false))] =
      normalize_ast [selectWhere (some (.inList (.identifier "x")
        [numExpr "1"] false))]
    ∧ normalize_ast [selectWhere (some (.inList (.identifier "x") [] false))] ≠
      normalize_ast [selectWhere (some (.inList (.identifier "x")
        [numExpr "1"] false))] := by
  refine ⟨fun e a rest n => by simp [normalize_expr],
    fun e n => by simp [normalize_expr], by decide, by decide⟩

/-- C7 (counterexample): the degradation fingerprint embeds the parser
error after the original text, so an (admissible) pair of external
parser errors can make two *different* unparseable texts collide:
`"a"` with error `"x) (y"` and `"a (x)"` with error `"y"` both
fingerprint to `"Unparseable statement: a (x) (y)"`. -/
theorem unparseable_collision_counterexample :
    (mkEntry "a" 0).query ≠ (mkEntry "a (x)" 0).query
    ∧ (normalize parseAdv (mkEntry "a" 0)).normalized_query =
      (normalize parseAdv (mkEntry "a (x)" 0)).normalized_query := by
  exact ⟨by decide, by decide⟩

/-- C7 (amended): parse failure is non-fatal and yields
`"Unparseable statement: <text> (<error>)"`; that fingerprint never
equals the fingerprint of any successfully parsed statement list; and
two unparseable records with different original text receive different
fingerprints whenever the parser reports the same error string for
both (text and error can otherwise compensate, see the
counterexample). -/
theorem unparseable_fingerprint_properties :
    (∀ (parse : String → Except String (List Statement)) (e : LogEntry)
        (err : String), parse e.query = .error err →
        (normalize parse e).normalized_query =
          unparseable_fingerprint e.query err)
    ∧ (∀ (parse : String → Except String (List Statement)) (e : LogEntry)
        (ast : List Statement), parse e.query = .ok ast →
        (normalize parse e).normalized_query = normalize_ast ast)
    ∧ (∀ (ast : List Statement) (text err : String),
        normalize_ast ast ≠ unparseable_fingerprint text err)
    ∧ (∀ (t1 t2 err : String), t1 ≠ t2 →
        unparseable_fingerprint t1 err ≠ unparseable_fingerprint t2 err) := by
  refine ⟨fun parse e err h => ?_, fun parse e ast h => ?_,
    unparseable_ne_parsed, unparseable_injective_text⟩
  · simp [normalize, h]
  · simp [normalize, h]

/-- Witness for C7 at concrete inputs. -/
theorem unparseable_fingerprint_properties_witness :
    (normalize (fun _ => .error "oops") (mkEntry "BAD QUERY" 0)).normalized_query =
      unparseable_fingerprint "BAD QUERY" "oops"
    ∧ normalize_ast [] ≠ unparseable_fingerprint "x" "e"
    ∧ unparseable_fingerprint "x" "e" ≠ unparseable_fingerprint "y" "e" :=
  ⟨unparseable_fingerprint_properties.1 _ _ _ rfl,
   unparseable_fingerprint_properties.2.2.1 [] "x" "e",
   unparseable_fingerprint_properties.2.2.2 "x" "y" "e" (by decide)⟩

/-- C1 (counterexample): two structurally different statements —
`INSERT IGNORE INTO t VALUES (0)` and `INSERT INTO t VALUES (0)` —
produce the *same* fingerprint, because `normalize_insert` erases the
`ignore` flag; so a structural difference beyond literals and IN-lists
does collide without genuine text equality. -/
theorem normalize_contract_counterexample :
    Statement.insert (insertValues true "0") ≠
      Statement.insert (insertValues false "0")
    ∧ normalize_ast [.insert (insertValues true "0")] =
      normalize_ast [.insert (insertValues false "0")] := by
  constructor
  · simp [insertValues]
  · decide

/-- C1 (amended): statement lists identical up to literal values and
IN-list cardinality *in the positions the normalizer visits* (i.e.
outside CTE bodies and outside every field of an `INSERT`, its
`VALUES`/`SELECT` source included) receive the same fingerprint; an
`INSERT`'s `ignore` flag, table alias, `SET` assignments,
`TABLE` keyword and format clause are erased outright, so statements
differing only there also collide; and literals inside CTE bodies and
`INSERT` sources are kept verbatim, so queries differing there get
*different* fingerprints. -/
theorem normalize_contract_amended :
    (∀ (ast1 ast2 : List Statement), LitEqStmtList ast1 ast2 →
        normalize_ast ast1 = normalize_ast ast2)
    ∧ (∀ (into : Bool) (columns : List String) (source : Option Query)
        (on_ returning : Option String) (replace_into : Bool)
        (priority insert_alias settings partitioned or_ : Option String)
        (after_columns : List String) (overwrite : Bool) (table : String)
        (ig1 ig2 : Bool) (ta1 ta2 : Option String)
        (as1 as2 : List Assignment) (htk1 htk2 : Bool)
        (fc1 fc2 : Option String),
        normalize_insert (.mk into columns source on_ returning replace_into
            priority insert_alias settings partitioned or_ after_columns
            overwrite table ig1 ta1 as1 htk1 fc1) =
          normalize_insert (.mk into columns source on_ returning replace_into
            priority insert_alias settings partitioned or_ after_columns
            overwrite table ig2 ta2 as2 htk2 fc2))
    ∧ normalize_ast [cteStmt "1"] ≠ normalize_ast [cteStmt "2"]
    ∧ normalize_ast [.insert (insertValues false "1")] ≠
      normalize_ast [.insert (insertValues false "2")] := by
  refine ⟨fun ast1 ast2 h => litEq_normalize_ast_eq h,
    by intros; rfl,
    by decide, by decide⟩

/-- Witness for C1: `WHERE id = 1` and `WHERE id = 2` are literal-equal
statements, and the amended contract makes their fingerprints agree. -/
theorem normalize_contract_amended_witness :
    normalize_ast
      [selectWhere (some (.binaryOp (.identifier "id") "=" (numExpr "1")))] =
    normalize_ast
      [selectWhere (some (.binaryOp (.identifier "id") "=" (numExpr "2")))] :=
  normalize_contract_amended.1 _ _ (by
    repeat first
    | exact LitEqExpr.value
    | constructor)


/-! ## Extractor lemmas -/

theorem accumulateQuery_ends (q : String) (h : strEndsWithChar q ';' = true) :
    ∀ ls : List String, accumulateQuery q ls = (q, ls) := by
  intro ls
  cases ls with
  | nil => rfl
  | cons l ls => simp [accumulateQuery, h]

theorem parse_log_skip (ts : String → Option String) (l : String)
    (rest : List String) (h : strStartsWith l "# Time" = false) :
    parse_log ts (l :: rest) = parse_log ts rest := by
  simp [parse_log, parseLogAux, h]

theorem parse_log_user_fatal (ts : String → Option String)
    (tl ul : String) (rest : List String) (cap tval : String)
    (h1 : strStartsWith tl "# Time" = true)
    (h2 : timeCapture tl = some cap)
    (h3 : ts cap = some tval)
    (h4 : userCaptures ul = none) :
    parse_log ts (tl :: ul :: rest) =
      .error ("Could not parse user info from line:\n" ++ ul) := by
  simp [parse_log, parseLogAux, h1, h2, h3, h4]

theorem parse_log_metric_fatal (ts : String → Option String)
    (tl ul ml : String) (rest : List String) (cap tval : String)
    (ug : String × String × String)
    (h1 : strStartsWith tl "# Time" = true)
    (h2 : timeCapture tl = some cap)
    (h3 : ts cap = some tval)
    (h4 : userCaptures ul = some ug)
    (h5 : metricCaptures ml = none) :
    parse_log ts (tl :: ul :: ml :: rest) = .error "Metric matching failed" := by
  simp [parse_log, parseLogAux, h1, h2, h3, h4, h5]

/-- Extracting `goodBlock ++ rest` parses the complete block into one
record and continues with `rest`; an error in `rest` therefore
discards the already-extracted record ("no partial output"). -/
theorem parse_log_good_block (ts : String → Option String)
    (rest : List String) (tv : String)
    (hts : ts "2019-07-30T13:01:34.887103Z" = some tv) :
    parse_log ts (goodBlock ++ rest) =
      match parse_log ts rest with
      | .error e => .error e
      | .ok es =>
          .ok ({ timestamp := tv, user := "foo", host := "h",
                 query_time := 1000000, lock_time := 100000, rows_sent := 1,
                 rows_examined := 1, query := "SELECT 1;" } :: es) := by
  have h1 : timeCapture "# Time: 2019-07-30T13:01:34.887103Z" =
      some "2019-07-30T13:01:34.887103Z" := by decide
  have h2 : userCaptures "# User@Host: foo[bar] @ h [1.2.3.4]" =
      some ("foo", "h", "1.2.3.4") := by decide
  have h3 : metricCaptures
      "# Query_time: 1.0  Lock_time: 0.1  Rows_sent: 1  Rows_examined: 1" =
      some ("1.0", "0.1", "1", "1") := by decide
  have h6 : parseScaledDecimal 6 "1.0" = some 1000000 := by decide
  have h7 : parseScaledDecimal 6 "0.1" = some 100000 := by decide
  have h8 : parseI32 "1" = some 1 := by decide
  have h9 : isPreambleLine "SELECT 1;" = false := by decide
  have h10 := accumulateQuery_ends "SELECT 1;" (by decide) rest
  simp only [goodBlock, List.cons_append, List.nil_append]
  simp +decide [parse_log, parseLogAux, h1, h2, h3, h6, h7, h8, hts]
  split
  next heq =>
    rw [show List.dropWhile isPreambleLine ("SELECT 1;" :: rest) =
        "SELECT 1;" :: rest from by simp [List.dropWhile, h9]] at heq
    cases heq
  next qline rest5 heq =>
    rw [show List.dropWhile isPreambleLine ("SELECT 1;" :: rest) =
        "SELECT 1;" :: rest from by simp [List.dropWhile, h9]] at heq
    cases heq
    rw [h10]
    have hq : strReplaceWs "SELECT 1;" = "SELECT 1;" := by
      simp +decide [strReplaceWs, replaceWs]
    simp only [hq]

/-- C4 (amended): input ending after a recognized header but *before
the first query line* discards the partial record (whether it stops
after the time line, the user/host line, or the metrics line); input
ending *during query accumulation* does not — the record is emitted
with the partial, unterminated query text. -/
theorem extractor_truncation_behaviour
    (ts : String → Option String) (tl ul ml q1 : String)
    (cap tval : String) (ug : String × String × String)
    (mg : String × String × String × String) (qt lt rs re : Int)
    (h1 : strStartsWith tl "# Time" = true)
    (h2 : timeCapture tl = some cap)
    (h3 : ts cap = some tval)
    (h4 : userCaptures ul = some ug)
    (h5 : metricCaptures ml = some mg)
    (h6 : parseScaledDecimal 6 mg.1 = some qt)
    (h7 : parseScaledDecimal 6 mg.2.1 = some lt)
    (h8 : parseI32 mg.2.2.1 = some rs)
    (h9 : parseI32 mg.2.2.2 = some re)
    (hpre : isPreambleLine q1 = false)
    (hsemi : strEndsWithChar q1 ';' = false) :
    parse_log ts [tl] = .ok []
    ∧ parse_log ts [tl, ul] = .ok []
    ∧ parse_log ts [tl, ul, ml] = .ok []
    ∧ parse_log ts [tl, ul, ml, q1] = .ok
        [{ timestamp := tval, user := ug.1,
           host := if ug.2.1.data.isEmpty then ug.2.2 else ug.2.1,
           query_time := qt, lock_time := lt, rows_sent := rs,
           rows_examined := re, query := strReplaceWs q1 }] := by
  clear hsemi
  refine ⟨?_, ?_, ?_, ?_⟩
  · simp [parse_log, parseLogAux, h1, h2, h3]
  · simp [parse_log, parseLogAux, h1, h2, h3, h4]
  · simp [parse_log, parseLogAux, h1, h2, h3, h4, h5, h6, h7, h8, h9]
  · simp [parse_log, parseLogAux, h1, h2, h3, h4, h5, h6, h7, h8, h9]
    split
    next heq =>
      rw [show List.dropWhile isPreambleLine [q1] = [q1] from by
        simp [List.dropWhile, hpre]] at heq
      cases heq
    next qline rest5 heq =>
      rw [show List.dropWhile isPreambleLine [q1] = [q1] from by
        simp [List.dropWhile, hpre]] at heq
      cases heq
      simp [accumulateQuery, parseLogAux]

/-- Witness for C4 (amended) at a concrete truncated input. -/
theorem extractor_truncation_behaviour_witness :
    parse_log (fun s => some s)
      [ "# Time: 2019-07-30T13:01:34.887103Z",
        "# User@Host: foo[bar] @ h [1.2.3.4]",
        "# Query_time: 1.0  Lock_time: 0.1  Rows_sent: 1  Rows_examined: 1" ] =
      .ok [] :=
  (extractor_truncation_behaviour (fun s => some s)
    "# Time: 2019-07-30T13:01:34.887103Z"
    "# User@Host: foo[bar] @ h [1.2.3.4]"
    "# Query_time: 1.0  Lock_time: 0.1  Rows_sent: 1  Rows_examined: 1"
    "SELECT x FROM t"
    "2019-07-30T13:01:34.887103Z" "2019-07-30T13:01:34.887103Z"
    ("foo", "h", "1.2.3.4") ("1.0", "0.1", "1", "1") 1000000 100000 1 1
    (by decide) (by decide) rfl (by decide) (by decide) (by decide)
    (by decide) (by decide) (by decide) (by decide) (by decide)).2.2.1

/-- C4 (counterexample): a stream that ends in the middle of the query
(no terminating `;` ever read) still yields the partial record — the
claim predicts it is discarded. -/
theorem extractor_truncation_counterexample :
    parse_log (fun s => some s) truncatedLog = .ok
      [{ timestamp := "2019-07-30T13:01:34.887103Z", user := "foo",
         host := "h", query_time := 1000000, lock_time := 100000,
         rows_sent := 1, rows_examined := 1, query := "SELECT * FROM t" }]
    ∧ strEndsWithChar "SELECT * FROM t" ';' = false := by
  constructor
  · have h1 : timeCapture "# Time: 2019-07-30T13:01:34.887103Z" =
        some "2019-07-30T13:01:34.887103Z" := by decide
    have h2 : userCaptures "# User@Host: foo[bar] @ h [1.2.3.4]" =
        some ("foo", "h", "1.2.3.4") := by decide
    have h3 : metricCaptures
        "# Query_time: 1.0  Lock_time: 0.1  Rows_sent: 1  Rows_examined: 1" =
        some ("1.0", "0.1", "1", "1") := by decide
    have h6 : parseScaledDecimal 6 "1.0" = some 1000000 := by decide
    have h7 : parseScaledDecimal 6 "0.1" = some 100000 := by decide
    have h8 : parseI32 "1" = some 1 := by decide
    simp +decide [truncatedLog, parse_log, parseLogAux, h1, h2, h3, h6, h7, h8]
    split
    next heq => exact absurd heq (by decide)
    next qline rest5 heq =>
      rw [show List.dropWhile isPreambleLine ["SELECT *", "FROM t"] =
          ["SELECT *", "FROM t"] from by decide] at heq
      cases heq
      simp +decide [parseLogAux, strReplaceWs, replaceWs,
        show accumulateQuery "SELECT *" ["FROM t"] = ("SELECT * FROM t", [])
          from by decide]
  · decide

/-- C5: while seeking a header, any line that does not begin a record
(does not start with `# Time`) is skipped and the run continues; once
a record has started, a user/host or metrics line that fails its
pattern aborts the entire run as an error — including records already
extracted earlier in the stream, so there is no partial output. -/
theorem extractor_skip_and_fatal :
    (∀ (ts : String → Option String) (l : String) (rest : List String),
        strStartsWith l "# Time" = false →
        parse_log ts (l :: rest) = parse_log ts rest)
    ∧ (∀ (ts : String → Option String) (tl ul : String) (rest : List String)
        (cap tval : String),
        strStartsWith tl "# Time" = true → timeCapture tl = some cap →
        ts cap = some tval → userCaptures ul = none →
        parse_log ts (tl :: ul :: rest) =
          .error ("Could not parse user info from line:\n" ++ ul))
    ∧ (∀ (ts : String → Option String) (tl ul ml : String)
        (rest : List String) (cap tval : String)
        (ug : String × String × String),
        strStartsWith tl "# Time" = true → timeCapture tl = some cap →
        ts cap = some tval → userCaptures ul = some ug →
        metricCaptures ml = none →
        parse_log ts (tl :: ul :: ml :: rest) =
          .error "Metric matching failed")
    ∧ (∀ (ts : String → Option String) (tl ul : String)
        (rest : List String) (tv cap tval : String),
        ts "2019-07-30T13:01:34.887103Z" = some tv →
        strStartsWith tl "# Time" = true → timeCapture tl = some cap →
        ts cap = some tval → userCaptures ul = none →
        parse_log ts (goodBlock ++ tl :: ul :: rest) =
          .error ("Could not parse user info from line:\n" ++ ul)) := by
  refine ⟨parse_log_skip, parse_log_user_fatal, parse_log_metric_fatal,
    fun ts tl ul rest tv cap tval hts h1 h2 h3 h4 => ?_⟩
  rw [parse_log_good_block ts (tl :: ul :: rest) tv hts,
    parse_log_user_fatal ts tl ul rest cap tval h1 h2 h3 h4]

/-- Witness for C5 at concrete inputs: a noise line is skipped, and a
malformed user/host line after a header kills the run. -/
theorem extractor_skip_and_fatal_witness :
    parse_log (fun s => some s) ["noise", "# Time: x", "garbage"] =
      parse_log (fun s => some s) ["# Time: x", "garbage"]
    ∧ parse_log (fun s => some s) ["# Time: x", "garbage"] =
        .error ("Could not parse user info from line:\ngarbage") :=
  ⟨extractor_skip_and_fatal.1 (fun s => some s) "noise" ["# Time: x", "garbage"]
      (by decide),
   extractor_skip_and_fatal.2.1 (fun s => some s) "# Time: x" "garbage" []
      "x" "x" (by decide) (by decide) rfl (by decide)⟩

end Myslowlog
